import Mathlib

/-!
Verification of the scrapient document-to-knowledge-graph pipeline.

This file gives a shallow embedding, in Lean, of the core functions of the
scrapient repository (the knowledge-graph extraction pipeline) and proves or
refutes the specification claims about them.  JavaScript strings are modelled
as Lean `String`s (lists of characters; all inputs of interest are in the
Basic Multilingual Plane, where JavaScript's UTF-16 code-unit view and the
code-point view agree), JavaScript numbers as rationals (`ℚ`; only additions
and order comparisons of values in [0,1] occur, where float and rational
semantics agree), thrown exceptions as `Except`/`Option` results, and the
`Math.random()` id generator as an explicitly passed supply of token strings.
Wall-clock values (`Date.now()` timestamps) are not modelled; fields derived
from them are omitted and noted at their definition sites.
-/

namespace Scrapient

/-! ### JavaScript string primitives

`wsB` is the JavaScript `\s` class restricted to the ASCII whitespace
characters (space, tab, line feed, carriage return, vertical tab, form feed);
`jsTrim` models `String.prototype.trim`, which removes leading and trailing
whitespace. -/

/-- Whitespace test used by the JavaScript regular-expression class `\s`
(ASCII part). -/
def wsB (c : Char) : Bool :=
  ([' ', '\t', '\n', '\r', '\x0b', '\x0c'] : List Char).contains c

/-- Characters of a string with leading and trailing whitespace removed,
modelling `String.prototype.trim`. -/
def jsTrimList (l : List Char) : List Char :=
  ((l.dropWhile wsB).reverse.dropWhile wsB).reverse

/-- Models `s.trim()`. -/
def jsTrim (s : String) : String :=
  ⟨jsTrimList s.data⟩

/-- Models `Math.ceil(text.length / 4)`, the token estimate used throughout
the source (`estimateTokens`). -/
def estimateTokens (s : String) : ℕ :=
  (s.length + 3) / 4

/-- Models `Array.prototype.join(' ')` on an array of strings. -/
def joinSp : List String → String
  | [] => ""
  | [s] => s
  | s :: rest => s ++ " " ++ joinSp rest

/-- Models `Array.prototype.join('\n')` on an array of strings. -/
def joinNl : List String → String
  | [] => ""
  | [s] => s
  | s :: rest => s ++ "\n" ++ joinNl rest

/-- Models `Array.prototype.join('\n\n')` on an array of strings. -/
def joinNlNl : List String → String
  | [] => ""
  | [s] => s
  | s :: rest => s ++ "\n\n" ++ joinNlNl rest

/-! ### DocumentProcessor (the Chunker)

Translation of `src/services/llm/processors/DocumentProcessor.ts`. -/

/-- Sentence-terminator class `[.!?]` of the splitting regular expression in
`splitIntoSentences`. -/
def sentB (c : Char) : Bool :=
  c == '.' || c == '!' || c == '?'

/-- Splitting a character list at every match of the regular expression
`[.!?]+\s+` (a maximal run of sentence terminators immediately followed by
whitespace), dropping the separators, as `String.prototype.split` does.  The
accumulator holds the characters of the current piece in reverse; the fuel
argument makes the recursion structural, and every call consumes at least one
character, so fuel `l.length` is always sufficient. -/
def splitSentRegexF : ℕ → List Char → List Char → List (List Char)
  | _, acc, [] => [acc.reverse]
  | 0, acc, l => [acc.reverse ++ l]
  | fuel + 1, acc, c :: cs =>
    if sentB c then
      let rest1 := (c :: cs).dropWhile sentB
      if rest1.head?.any wsB then
        acc.reverse :: splitSentRegexF fuel [] (rest1.dropWhile wsB)
      else
        splitSentRegexF fuel (((c :: cs).takeWhile sentB).reverse ++ acc) rest1
    else
      splitSentRegexF fuel (c :: acc) cs

/-- Splitting at `[.!?]+\s+` with the separators dropped. -/
def splitSentRegex (l : List Char) : List (List Char) :=
  splitSentRegexF l.length [] l

/-- Models `DocumentProcessor.splitIntoSentences`: split at `[.!?]+\s+`,
discard pieces that are blank after trimming, and trim the rest. -/
def splitIntoSentences (text : String) : List String :=
  (((splitSentRegex text.data).map (fun cs => String.mk cs)).filter
    (fun s => jsTrim s != "")).map jsTrim

/-- One produced chunk.  `metaStart`/`metaEnd` model the optional
`metadata.startLine`/`metadata.endLine` fields and `sectionLabel` the optional
`metadata.section` field. -/
structure DocumentChunk where
  content : String
  index : ℕ
  tokens : ℕ
  sectionLabel : Option String
  metaStart : Option Int
  metaEnd : Option Int
deriving Repr, DecidableEq

/-- The `DocumentProcessorConfig` of the source. -/
structure ProcCfg where
  chunkSize : ℕ
  chunkOverlap : ℕ
  preserveStructure : Bool
deriving Repr, DecidableEq

/-- The configuration installed by the `LLMService` constructor
(`chunkSize: 3000, chunkOverlap: 200, preserveStructure: true`). -/
def defaultProcCfg : ProcCfg := ⟨3000, 200, true⟩

/-- Models `DocumentProcessor.createOverlap`: re-split the current chunk into
sentences, keep the last `Math.floor(chunkOverlap / 100)` of them
(`Array.prototype.slice(-k)`, which is the whole array when `k = 0` because
`-0 === 0`), and prepend them to the new sentence. -/
def createOverlap (cfg : ProcCfg) (currentChunk newSentence : String) : String :=
  let sentences := splitIntoSentences currentChunk
  let k := cfg.chunkOverlap / 100
  let overlapSentences := if k == 0 then sentences else sentences.drop (sentences.length - k)
  joinSp overlapSentences ++ " " ++ newSentence

/-- The sentence-packing loop of `DocumentProcessor.chunkText`, carried out
over the already-split sentence list.  `chunks` is the list built so far and
`current` the chunk under construction (`currentChunk`). -/
def chunkLoop (cfg : ProcCfg) (typ : String) :
    List DocumentChunk → String → List String → List DocumentChunk
  | chunks, current, [] =>
    if jsTrim current != "" then
      chunks ++ [⟨jsTrim current, chunks.length, estimateTokens current,
        some (typ ++ "-chunk-" ++ toString (chunks.length + 1)), none, none⟩]
    else chunks
  | chunks, current, s :: rest =>
    let potential := current ++ s ++ " "
    if cfg.chunkSize < estimateTokens potential ∧ current ≠ "" then
      chunkLoop cfg typ
        (chunks ++ [⟨jsTrim current, chunks.length, estimateTokens current,
          some (typ ++ "-chunk-" ++ toString (chunks.length + 1)), none, none⟩])
        (createOverlap cfg current s) rest
    else
      chunkLoop cfg typ chunks potential rest

/-- Models `DocumentProcessor.chunkText`. -/
def chunkText (cfg : ProcCfg) (content typ : String) : List DocumentChunk :=
  chunkLoop cfg typ [] "" (splitIntoSentences content)

/-- Models `DocumentProcessor.processText`. -/
def processText (cfg : ProcCfg) (content : String) : List DocumentChunk :=
  chunkText cfg content "text"

/-! ### JSON values and `JSON.parse`

The source hands model output to the JavaScript builtin `JSON.parse` inside
`try`/`catch`.  `Json` is the type of JSON values (numbers as exact
rationals; the values compared in this development lie in `[0, 1]`, where
double and rational arithmetic agree) and `Json.parse` is a standard
recursive-descent JSON parser: it succeeds exactly on well-formed JSON text
and returns `none` where `JSON.parse` throws. -/

inductive Json where
  | null
  | bool (b : Bool)
  | num (q : ℚ)
  | str (s : String)
  | arr (elems : List Json)
  | obj (fields : List (String × Json))

/-- Object member access `o[k]`: JavaScript keeps the last value for a
duplicated key. -/
def jsLookup (k : String) (kvs : List (String × Json)) : Option Json :=
  (kvs.reverse.find? (fun p => p.1 == k)).map (fun p => p.2)

/-- JavaScript truthiness of a JSON value. -/
def truthy : Json → Bool
  | .null => false
  | .bool b => b
  | .num q => !(q == 0)
  | .str s => !(s == "")
  | .arr _ => true
  | .obj _ => true

/-- JSON whitespace (the only four characters `JSON.parse` skips). -/
def jsonWsB (c : Char) : Bool :=
  ([' ', '\t', '\n', '\r'] : List Char).contains c

/-- Skipping JSON whitespace. -/
def skipWsJ (l : List Char) : List Char :=
  l.dropWhile jsonWsB

/-- Value of a hexadecimal digit. -/
def hexVal (c : Char) : Option ℕ :=
  let n := c.toNat
  if 48 ≤ n ∧ n ≤ 57 then some (n - 48)
  else if 97 ≤ n ∧ n ≤ 102 then some (n - 87)
  else if 65 ≤ n ∧ n ≤ 70 then some (n - 55)
  else none

/-- Single-character JSON string escapes. -/
def escChar : Char → Option Char
  | '\"' => some '\"'
  | '\\' => some '\\'
  | '/' => some '/'
  | 'b' => some '\x08'
  | 'f' => some '\x0c'
  | 'n' => some '\n'
  | 'r' => some '\r'
  | 't' => some '\t'
  | _ => none

/-- Body of a JSON string literal, after the opening quote: returns the
decoded characters and the input remaining after the closing quote.  Raw
control characters and invalid escapes are rejected, as `JSON.parse` rejects
them.  Each step consumes input, so fuel equal to the input length always
suffices. -/
def strBodyF : ℕ → List Char → Option (List Char × List Char)
  | _, [] => none
  | 0, _ => none
  | fuel + 1, c :: cs =>
    if c == '\"' then some ([], cs)
    else if c == '\\' then
      match cs with
      | [] => none
      | e :: cs2 =>
        if e == 'u' then
          match cs2 with
          | h1 :: h2 :: h3 :: h4 :: cs3 =>
            match hexVal h1, hexVal h2, hexVal h3, hexVal h4 with
            | some a, some b, some d, some g =>
              match strBodyF fuel cs3 with
              | some (body, rest) =>
                some (Char.ofNat (((a * 16 + b) * 16 + d) * 16 + g) :: body, rest)
              | none => none
            | _, _, _, _ => none
          | _ => none
        else
          match escChar e with
          | some ec =>
            match strBodyF fuel cs2 with
            | some (body, rest) => some (ec :: body, rest)
            | none => none
          | none => none
    else if c.toNat < 32 then none
    else
      match strBodyF fuel cs with
      | some (body, rest) => some (c :: body, rest)
      | none => none

/-- Numeric value of a digit list. -/
def digitsVal (ds : List Char) : ℕ :=
  ds.foldl (fun acc c => acc * 10 + (c.toNat - '0'.toNat)) 0

/-- A JSON number literal (`-?int frac? exp?` with no leading zeros),
returning its exact rational value and the remaining input. -/
def parseNumLit (l : List Char) : Option (ℚ × List Char) :=
  let signSplit : Bool × List Char :=
    match l with
    | '-' :: t => (true, t)
    | _ => (false, l)
  let neg := signSplit.1
  let l1 := signSplit.2
  let intDs := l1.takeWhile Char.isDigit
  let l2 := l1.dropWhile Char.isDigit
  if intDs = [] then none
  else if 1 < intDs.length ∧ intDs.head? = some '0' then none
  else
    let fracSplit : Option (List Char × List Char) :=
      match l2 with
      | '.' :: t =>
        let fds := t.takeWhile Char.isDigit
        if fds = [] then none else some (fds, t.dropWhile Char.isDigit)
      | _ => some ([], l2)
    match fracSplit with
    | none => none
    | some (fracDs, l3) =>
      let expSplit : Option (Bool × ℕ × List Char) :=
        match l3 with
        | c :: t =>
          if c == 'e' || c == 'E' then
            let esign : Bool × List Char :=
              match t with
              | '+' :: u => (false, u)
              | '-' :: u => (true, u)
              | _ => (false, t)
            let eds := esign.2.takeWhile Char.isDigit
            if eds = [] then none
            else some (esign.1, digitsVal eds, esign.2.dropWhile Char.isDigit)
          else some (false, 0, l3)
        | [] => some (false, 0, l3)
      match expSplit with
      | none => none
      | some (eneg, expv, rest) =>
        let base : ℤ := (digitsVal intDs : ℤ) * 10 ^ fracDs.length + (digitsVal fracDs : ℤ)
        let signed : ℤ := if neg then -base else base
        let scaled : ℚ :=
          if eneg then mkRat signed (10 ^ (fracDs.length + expv))
          else mkRat (signed * 10 ^ expv) (10 ^ fracDs.length)
        some (scaled, rest)

/-- The five positions of the JSON grammar the recursive-descent parser can
be in.  One fueled function handles all five so that the recursion is plain
structural recursion on the fuel (and therefore reduces inside the kernel):
`elems`/`fields` results are wrapped in `Json.arr`/`Json.obj`. -/
inductive PMode where
  | val
  | elems
  | elemsLoop
  | fields
  | fieldsLoop

/-- The recursive-descent JSON grammar: values, arrays (`elems` immediately
after `[`, `elemsLoop` for a nonempty element list), and objects (`fields`
immediately after the opening brace, `fieldsLoop` for a nonempty member
list).  Each recursive call consumes fuel; every production consumes at
least one character per three fuel units, so fuel `4 * (length + 1)` always
suffices. -/
def parseF : ℕ → PMode → List Char → Option (Json × List Char)
  | 0, _, _ => none
  | fuel + 1, .val, l =>
    match skipWsJ l with
    | [] => none
    | c :: cs =>
      if c == '\x7b' then parseF fuel .fields cs
      else if c == '[' then parseF fuel .elems cs
      else if c == '\"' then
        match strBodyF cs.length cs with
        | some (body, rest) => some (.str ⟨body⟩, rest)
        | none => none
      else if c == 't' then
        match cs with
        | 'r' :: 'u' :: 'e' :: rest => some (.bool true, rest)
        | _ => none
      else if c == 'f' then
        match cs with
        | 'a' :: 'l' :: 's' :: 'e' :: rest => some (.bool false, rest)
        | _ => none
      else if c == 'n' then
        match cs with
        | 'u' :: 'l' :: 'l' :: rest => some (.null, rest)
        | _ => none
      else
        match parseNumLit (c :: cs) with
        | some (q, rest) => some (.num q, rest)
        | none => none
  | fuel + 1, .elems, l =>
    match skipWsJ l with
    | ']' :: rest => some (.arr [], rest)
    | _ => parseF fuel .elemsLoop l
  | fuel + 1, .elemsLoop, l =>
    match parseF fuel .val l with
    | none => none
    | some (v, rest) =>
      match skipWsJ rest with
      | ',' :: rest2 =>
        match parseF fuel .elemsLoop rest2 with
        | some (.arr vs, rest3) => some (.arr (v :: vs), rest3)
        | _ => none
      | ']' :: rest2 => some (.arr [v], rest2)
      | _ => none
  | fuel + 1, .fields, l =>
    match skipWsJ l with
    | '\x7d' :: rest => some (.obj [], rest)
    | _ => parseF fuel .fieldsLoop l
  | fuel + 1, .fieldsLoop, l =>
    match skipWsJ l with
    | '\"' :: cs2 =>
      match strBodyF cs2.length cs2 with
      | none => none
      | some (key, rest) =>
        match skipWsJ rest with
        | ':' :: rest2 =>
          match parseF fuel .val rest2 with
          | none => none
          | some (v, rest3) =>
            match skipWsJ rest3 with
            | ',' :: rest4 =>
              match parseF fuel .fieldsLoop rest4 with
              | some (.obj kvs, rest5) => some (.obj ((⟨key⟩, v) :: kvs), rest5)
              | _ => none
            | '\x7d' :: rest4 => some (.obj [(⟨key⟩, v)], rest4)
            | _ => none
        | _ => none
    | _ => none

/-- Models the builtin `JSON.parse`: `some` on well-formed JSON text, `none`
where the builtin throws. -/
def Json.parse (s : String) : Option Json :=
  match parseF (4 * (s.length + 1)) .val s.data with
  | some (j, rest) => if (skipWsJ rest).isEmpty then some j else none
  | none => none

/-! ### Extracting the JSON span of a model response

Both `parseKGResponse` (`src/services/kg/index.ts`) and the `LLMService`
response parsers locate embedded JSON with `response.match(/\{[\s\S]*\}/)`:
the leftmost-longest match runs from the first opening brace that precedes
the last closing brace of the text, up to and including that last closing
brace.  No match yields `null`. -/

/-- Models `response.match(/\{[\s\S]*\}/)`, returning the matched span. -/
def extractJsonSpan (s : String) : Option String :=
  let upto := (s.data.reverse.dropWhile (fun c => c != '\x7d')).reverse
  let span := upto.dropWhile (fun c => c != '\x7b')
  if span.isEmpty then none else some ⟨span⟩

/-! ### `parseKGResponse` (`src/services/kg/index.ts`)

The raw parsed values are dynamically typed, so the converted entities and
relationships keep `Json`-valued fields exactly as the JavaScript object
literal builds them.  `Math.random().toString(36).substr(2, 9)` is modelled
by explicit supplies `freshE`/`freshR` of arbitrary token strings, indexed by
the element's position in its array. -/

/-- Property access `v[k]` on a JSON value: a `TypeError` (modelled as
`Except.error`) on `null`, the member for objects (`undefined`, i.e. `none`,
when absent), and `undefined` for primitive receivers relevant here. -/
def pget (j : Json) (k : String) : Except Unit (Option Json) :=
  match j with
  | .null => .error ()
  | .obj kvs => .ok (jsLookup k kvs)
  | _ => .ok none

/-- Optional chaining `v?.k`: `undefined` when the receiver is absent,
`null`, or not an object. -/
def optChainGet (v : Option Json) (k : String) : Option Json :=
  match v with
  | some (.obj kvs) => jsLookup k kvs
  | _ => none

/-- JavaScript `a || b` where `a` may be `undefined` (`none`). -/
def jsOr (a : Option Json) (b : Json) : Json :=
  match a with
  | some v => if truthy v then v else b
  | none => b

/-- JavaScript `a || b` where both operands may be `undefined`. -/
def jsOrOpt (a b : Option Json) : Option Json :=
  match a with
  | some v => if truthy v then some v else b
  | none => b

/-- A converted knowledge-graph entity as built by the object literal in
`parseKGResponse` (fields keep their dynamic `Json` values). -/
structure EntityJ where
  id : Json
  label : Json
  type : Json
  properties : Json
  description : Option Json
  importance : Json

/-- A converted knowledge-graph relationship as built in
`parseKGResponse`. -/
structure RelJ where
  id : Json
  source : Option Json
  target : Option Json
  type : Json
  properties : Json
  weight : Json
  description : Option Json

/-- The `KGRawData` object returned by `parseKGResponse`. -/
structure KGRawJ where
  entities : List EntityJ
  relationships : List RelJ
  summary : Json
  themes : Json

/-- Property access `v[k]` on a receiver already known not to be `null`:
the member for objects, `undefined` (`none`) otherwise. -/
def propGet (j : Json) (k : String) : Option Json :=
  match j with
  | .obj kvs => jsLookup k kvs
  | _ => none

/-- The entity-mapping body of `parseKGResponse`:
`id: entity.id || 'entity_' + random`, `label: entity.label || entity.name ||
'Unknown'`, `type: entity.type || 'other'`, `properties: entity.properties ||
{}`, `description: entity.properties?.description || entity.description`,
`importance: entity.importance || 0.5`.  A `null` array element makes the
first property access throw a `TypeError` (`Except.error`); any other value
yields its members (or `undefined`) without throwing. -/
def convEntity (fresh : String) (e : Json) : Except Unit EntityJ :=
  match e with
  | .null => .error ()
  | _ =>
    let propsRaw := propGet e "properties"
    .ok
      { id := jsOr (propGet e "id") (.str ("entity_" ++ fresh))
        label := jsOr (propGet e "label") (jsOr (propGet e "name") (.str "Unknown"))
        type := jsOr (propGet e "type") (.str "other")
        properties := jsOr propsRaw (.obj [])
        description := jsOrOpt (optChainGet propsRaw "description") (propGet e "description")
        importance := jsOr (propGet e "importance") (.num (mkRat 1 2)) }

/-- The relationship-mapping body of `parseKGResponse` (see
`convEntity` for the `null` case). -/
def convRel (fresh : String) (r : Json) : Except Unit RelJ :=
  match r with
  | .null => .error ()
  | _ =>
    let propsRaw := propGet r "properties"
    .ok
      { id := jsOr (propGet r "id") (.str ("rel_" ++ fresh))
        source := propGet r "source"
        target := propGet r "target"
        type := jsOr (propGet r "type") (jsOr (propGet r "relationship") (.str "related_to"))
        properties := jsOr propsRaw (.obj [])
        weight := jsOr (propGet r "weight") (.num (mkRat 1 2))
        description := jsOrOpt (optChainGet propsRaw "description") (propGet r "description") }

/-- Mapping `convEntity` over the raw entity array; `i` is the index into
the fresh-token supply. -/
def convEntities (freshE : ℕ → String) : ℕ → List Json → Except Unit (List EntityJ)
  | _, [] => .ok []
  | i, e :: es => do
    let a ← convEntity (freshE i) e
    let r ← convEntities freshE (i + 1) es
    pure (a :: r)

/-- Mapping `convRel` over the raw relationship array. -/
def convRels (freshR : ℕ → String) : ℕ → List Json → Except Unit (List RelJ)
  | _, [] => .ok []
  | i, r :: rs => do
    let a ← convRel (freshR i) r
    let rest ← convRels freshR (i + 1) rs
    pure (a :: rest)

/-- Models `parseKGResponse` of `src/services/kg/index.ts`: extract the JSON
span, `JSON.parse` it, require `entities` and `relationships` to be arrays,
and convert them; every failure path (no span, decode error, missing or
non-array fields, or a thrown `TypeError` during conversion) returns `null`
(`none`). -/
def parseKGResponse (freshE freshR : ℕ → String) (response : String) : Option KGRawJ :=
  match extractJsonSpan response with
  | none => none
  | some span =>
    match Json.parse span with
    | none => none
    | some parsed =>
      let convert : Except Unit (Option KGRawJ) := do
        let entsV ← pget parsed "entities"
        match entsV with
        | some (.arr ents) => do
          let relsV ← pget parsed "relationships"
          match relsV with
          | some (.arr rels) => do
            let es ← convEntities freshE 0 ents
            let rs ← convRels freshR 0 rels
            let sumV ← pget parsed "summary"
            let themesV ← pget parsed "themes"
            pure (some ⟨es, rs, jsOr sumV (.str ""), jsOr themesV (.arr [])⟩)
          | _ => pure none
        | _ => pure none
      match convert with
      | .ok v => v
      | .error _ => none

/-! ### The `LLMService` response parsers (`src/services/llm/LLMService.ts`) -/

/-- Models `response.split(' ').length` (single-space split, empty pieces
kept). -/
def wordSplitCount (s : String) : ℕ :=
  (s.data.splitOn ' ').length

/-- Models `LLMService.createFallbackResponse`: the per-task typed fallback
object built when no JSON could be decoded from the response. -/
def createFallbackResponse (response taskType : String) : Json :=
  if taskType == "summarize" then
    .obj [("summary", .str response), ("keyPoints", .arr []),
      ("wordCount", .num (mkRat (wordSplitCount response) 1))]
  else if taskType == "extract_entities" then
    .obj [("entities", .arr [])]
  else if taskType == "analyze_sentiment" then
    .obj [("sentiment", .num 0), ("label", .str "neutral"),
      ("confidence", .num (mkRat 1 2)), ("keyPhrases", .arr [])]
  else if taskType == "generate_keywords" then
    .obj [("keywords", .arr [])]
  else if taskType == "extract_relationships" then
    .obj [("relationships", .arr [])]
  else
    .obj [("result", .str response)]

/-- Models `LLMService.parseAnalysisResponse`: return the decoded JSON span
when one decodes, otherwise the task's typed fallback; decode exceptions are
caught, so the function is total. -/
def parseAnalysisResponse (response taskType : String) : Json :=
  match extractJsonSpan response with
  | some span =>
    match Json.parse span with
    | some j => j
    | none => createFallbackResponse response taskType
  | none => createFallbackResponse response taskType

/-- Models `LLMService.parseMultiDocumentResponse`. -/
def parseMultiDocumentResponse (response : String) : Json :=
  match extractJsonSpan response with
  | some span =>
    match Json.parse span with
    | some j => j
    | none => .obj [("analysis", .str response)]
  | none => .obj [("analysis", .str response)]

/-- Models `LLMService.parseJSONResponse`. -/
def parseJSONResponse (response : String) : Option Json :=
  match extractJsonSpan response with
  | some span => Json.parse span
  | none => none

/-! ### The typed `KGRawData` model (`src/services/kg/types.ts`)

`generateMermaidCode` and the Cypher compiler operate on values of the
declared TypeScript interfaces: string ids and labels, rational importance
and weight.  `properties` is an open map never read by these functions and
is kept as a `Json` value. -/

/-- The `KGEntity` interface. -/
structure KGEntity where
  id : String
  label : String
  type : String
  properties : Json
  description : Option String
  importance : ℚ

/-- The `KGRelationship` interface. -/
structure KGRelationship where
  id : String
  source : String
  target : String
  type : String
  properties : Json
  weight : ℚ
  description : Option String

/-- The `KGRawData` interface. -/
structure KGRawData where
  entities : List KGEntity
  relationships : List KGRelationship
  summary : Option String
  themes : Option (List String)

/-! ### Diagram renderer (`src/services/kg/mermaid.ts`) -/

/-- The `MermaidConfig` limits (`theme` is unused by the generator body
except in the fixed style block, which is constant). -/
structure MermaidCfg where
  maxNodes : ℕ
  maxEdges : ℕ

/-- The destructuring defaults `maxNodes = 50, maxEdges = 100`. -/
def defaultMermaidCfg : MermaidCfg := ⟨50, 100⟩

/-- The sort key `entity.importance || 0` (on a rational this is the
identity, since `0 || 0` is `0`). -/
def impKey (e : KGEntity) : ℚ :=
  if e.importance == 0 then 0 else e.importance

/-- The comparator `(a, b) => (b.importance || 0) - (a.importance || 0)`:
`a` is placed no later than `b` exactly when the comparator is `≤ 0`,
i.e. when `impKey b ≤ impKey a`. -/
def entityRel (a b : KGEntity) : Prop :=
  impKey b ≤ impKey a

instance : DecidableRel entityRel :=
  fun a b => inferInstanceAs (Decidable (impKey b ≤ impKey a))

instance : IsTotal KGEntity entityRel :=
  ⟨fun a b => le_total (impKey b) (impKey a)⟩

instance : IsTrans KGEntity entityRel :=
  ⟨fun _ _ _ h1 h2 => le_trans h2 h1⟩

/-- The state of `kgData.entities` after the in-place
`kgData.entities.sort(...)`: JavaScript `Array.prototype.sort` is required
to be stable, which the stable `List.insertionSort` models. -/
def sortedEntities (g : KGRawData) : List KGEntity :=
  g.entities.insertionSort entityRel

/-- The `limitedEntities` binding of `generateMermaidCode`: sort by
descending importance, keep the first `maxNodes`. -/
def limitedEntities (g : KGRawData) (cfg : MermaidCfg) : List KGEntity :=
  (sortedEntities g).take cfg.maxNodes

/-- The `entityIds` set, as the id list of the selected entities. -/
def limitedEntityIds (g : KGRawData) (cfg : MermaidCfg) : List String :=
  (limitedEntities g cfg).map (fun e => e.id)

/-- The relationship filter: both endpoints must be ids of surviving
entities. -/
def survivingRels (g : KGRawData) (cfg : MermaidCfg) : List KGRelationship :=
  g.relationships.filter
    (fun r => (limitedEntityIds g cfg).contains r.source &&
      (limitedEntityIds g cfg).contains r.target)

/-- The sort key `rel.weight || 0` of the edge comparator. -/
def wKey (r : KGRelationship) : ℚ :=
  if r.weight == 0 then 0 else r.weight

/-- The edge comparator `(a, b) => (b.weight || 0) - (a.weight || 0)`. -/
def relRel (a b : KGRelationship) : Prop :=
  wKey b ≤ wKey a

instance : DecidableRel relRel :=
  fun a b => inferInstanceAs (Decidable (wKey b ≤ wKey a))

instance : IsTotal KGRelationship relRel :=
  ⟨fun a b => le_total (wKey b) (wKey a)⟩

instance : IsTrans KGRelationship relRel :=
  ⟨fun _ _ _ h1 h2 => le_trans h2 h1⟩

/-- The `limitedRelationships` binding of `generateMermaidCode`: filter to
surviving endpoints, sort by descending weight, keep the first
`maxEdges`. -/
def limitedRelationships (g : KGRawData) (cfg : MermaidCfg) : List KGRelationship :=
  ((survivingRels g cfg).insertionSort relRel).take cfg.maxEdges

/-- Models `sanitizeId`: replace every character outside `[a-zA-Z0-9]` with
an underscore. -/
def sanitizeId (id : String) : String :=
  ⟨id.data.map (fun c => if c.isAlphanum then c else '_')⟩

/-- Models `sanitizeLabel`: strip quote characters, trim, and cap at 30
characters with an ellipsis. -/
def sanitizeLabel (label : String) : String :=
  let cleaned := jsTrim ⟨label.data.filter (fun c => !(c == '\'' || c == '\"'))⟩
  if 30 < cleaned.length then ⟨cleaned.data.take 30⟩ ++ "..." else cleaned

/-- Models `getNodeStyle`: class assignment `:::type` with `other` for a
falsy type. -/
def getNodeStyle (e : KGEntity) : String :=
  ":::" ++ (if e.type == "" then "other" else e.type)

/-- Models `getArrowStyle` on the already-defaulted weight. -/
def getArrowStyle (weight : ℚ) : String :=
  if mkRat 8 10 ≤ weight then "===>"
  else if mkRat 5 10 ≤ weight then "-->"
  else "-.->"

/-- The defaulted weight `rel.weight || 0.5` passed to `getArrowStyle`. -/
def wArrow (r : KGRelationship) : ℚ :=
  if r.weight == 0 then mkRat 1 2 else r.weight

/-- The fixed styling block appended to every generated diagram. -/
def mermaidStyleLines : List String :=
  ["",
   "    %% Styling",
   "    classDef person fill:#e1f5fe,stroke:#01579b,stroke-width:2px",
   "    classDef organization fill:#f3e5f5,stroke:#4a148c,stroke-width:2px",
   "    classDef location fill:#e8f5e8,stroke:#1b5e20,stroke-width:2px",
   "    classDef concept fill:#fff3e0,stroke:#e65100,stroke-width:2px",
   "    classDef event fill:#fce4ec,stroke:#880e4f,stroke-width:2px",
   "    classDef other fill:#f5f5f5,stroke:#424242,stroke-width:2px"]

/-- The `mermaidLines` array built by `generateMermaidCode` before joining
with newlines. -/
def mermaidLines (g : KGRawData) (cfg : MermaidCfg) : List String :=
  ["flowchart TD"] ++
  (limitedEntities g cfg).map (fun e =>
    "    " ++ sanitizeId e.id ++ "[\"" ++ sanitizeLabel e.label ++ "\"]" ++ getNodeStyle e) ++
  (limitedRelationships g cfg).map (fun r =>
    "    " ++ sanitizeId r.source ++ " " ++ getArrowStyle (wArrow r) ++
      "|\"" ++ sanitizeLabel r.type ++ "\"| " ++ sanitizeId r.target) ++
  mermaidStyleLines

/-- Models `generateMermaidCode` (`src/services/kg/mermaid.ts`).  The body
is total, so the `try`/`catch` fallback (`generateFallbackMermaid`) is
unreachable in the model. -/
def generateMermaidCode (g : KGRawData) (cfg : MermaidCfg) : String :=
  joinNl (mermaidLines g cfg)

/-- Models the observable heap effect of `generateMermaidCode` on its
argument: `kgData.entities.sort(...)` sorts the entities array in place
(`filter` copies the relationships array, which therefore stays intact).
Returns the diagram text together with the state of the graph after the
call. -/
def generateMermaidCodeEff (g : KGRawData) (cfg : MermaidCfg) : String × KGRawData :=
  (generateMermaidCode g cfg, { g with entities := sortedEntities g })

/-! ### Query-script compiler (`src/services/kg/cypher.ts`) -/

/-- Models `capitalizeFirst`. -/
def capitalizeFirst (s : String) : String :=
  match s.data with
  | [] => "Entity"
  | c :: rest => ⟨c.toUpper :: rest.map Char.toLower⟩

/-- Models `sanitizeCypherString`: escape quote characters as `\"`, replace
carriage returns and line feeds by spaces, and trim. -/
def sanitizeCypherString (s : String) : String :=
  if s == "" then ""
  else jsTrim ⟨s.data.flatMap (fun c =>
    if c == '\"' || c == '\'' then ['\\', '\"']
    else if c == '\r' || c == '\n' then [' ']
    else [c])⟩

/-- Collapsing runs of underscores to a single underscore
(`replace(/_+/g, '_')`). -/
def collapseUnders : List Char → List Char
  | [] => []
  | [c] => [c]
  | c1 :: c2 :: rest =>
    if c1 == '_' && c2 == '_' then collapseUnders (c2 :: rest)
    else c1 :: collapseUnders (c2 :: rest)

/-- Models `sanitizeRelationshipType`: uppercase, replace characters outside
`[A-Z0-9_]` with underscores, collapse underscore runs, and strip one
leading and one trailing underscore (`replace(/^_|_$/g, '')`). -/
def sanitizeRelationshipType (t : String) : String :=
  if t == "" then "RELATED_TO"
  else
    let up := t.data.map Char.toUpper
    let rep := up.map (fun c =>
      if ('A' ≤ c ∧ c ≤ 'Z') ∨ ('0' ≤ c ∧ c ≤ '9') ∨ c = '_' then c else '_')
    let col := collapseUnders rep
    let noLead := match col with
      | '_' :: rest => rest
      | l => l
    let noTrail := match noLead.reverse with
      | '_' :: rest => rest.reverse
      | _ => noLead
    ⟨noTrail⟩

/-- JavaScript number-to-string conversion for the numbers interpolated into
Cypher code.  Values whose denominator divides a power of ten (every number
that entered through JSON decimal literals or the 0.5 defaults) are rendered
exactly as JavaScript would; the theorems below never inspect digits of any
other value. -/
def jsNumToString (q : ℚ) : String :=
  if q.den = 1 then toString q.num
  else
    match (List.range 18).find? (fun k => 10 ^ k % q.den == 0) with
    | some k =>
      let scaled : ℤ := q.num * ((10 ^ k : ℕ) / q.den)
      let sign := if scaled < 0 then "-" else ""
      let intPart := scaled.natAbs / 10 ^ k
      let fracPart := scaled.natAbs % 10 ^ k
      let fracStr := toString fracPart
      sign ++ toString intPart ++ "." ++
        ⟨List.replicate (k - fracStr.length) '0' ++ fracStr.data⟩
    | none => toString q.num ++ "/" ++ toString q.den

/-- First-occurrence deduplication with fuel (each step consumes one list
element, so fuel equal to the length always suffices). -/
def dedupFirstF : ℕ → List String → List String
  | _, [] => []
  | 0, l => l
  | fuel + 1, x :: xs => x :: dedupFirstF fuel (xs.filter (fun y => y != x))

/-- First-occurrence deduplication, modelling `[...new Set(xs)]`. -/
def dedupFirst (l : List String) : List String :=
  dedupFirstF l.length l

/-- The five lines pushed for one entity by `generateFallbackCypher`
(a `MERGE` upsert keyed by the sanitized id, three `SET` lines, and a
blank). -/
def entityCypherLines (e : KGEntity) : List String :=
  let labelName := capitalizeFirst e.type
  let id := sanitizeCypherString e.id
  let label := sanitizeCypherString e.label
  let description := sanitizeCypherString (e.description.getD "")
  let importance := if e.importance == 0 then mkRat 1 2 else e.importance
  ["MERGE (n:" ++ labelName ++ " \x7bid: \"" ++ id ++ "\"\x7d)",
   "SET n.label = \"" ++ label ++ "\",",
   "    n.description = \"" ++ description ++ "\",",
   "    n.importance = " ++ jsNumToString importance ++ ";",
   ""]

/-- The five lines pushed for one relationship by
`generateFallbackCypher`. -/
def relCypherLines (r : KGRelationship) : List String :=
  let sourceId := sanitizeCypherString r.source
  let targetId := sanitizeCypherString r.target
  let relType := sanitizeRelationshipType r.type
  let weight := if r.weight == 0 then mkRat 1 2 else r.weight
  let description := sanitizeCypherString (r.description.getD "")
  ["MATCH (source \x7bid: \"" ++ sourceId ++ "\"\x7d), (target \x7bid: \"" ++ targetId ++ "\"\x7d)",
   "MERGE (source)-[r:" ++ relType ++ "]->(target)",
   "SET r.weight = " ++ jsNumToString weight ++ ",",
   "    r.description = \"" ++ description ++ "\";",
   ""]

/-- The `lines` array built by `generateFallbackCypher`
(`src/services/kg/cypher.ts`): header comments, one uniqueness constraint
per distinct entity type, the per-entity upserts, the per-relationship
upserts (section present only when relationships exist), and one index per
distinct entity type. -/
def generateFallbackCypherLines (g : KGRawData) : List String :=
  let entityTypes := dedupFirst (g.entities.map (fun e => e.type))
  ["// Generated Cypher code for Knowledge Graph",
   "// Created by Scrapient KG Service",
   ""] ++
  ["// Create constraints for entity types"] ++
  entityTypes.map (fun t =>
    "CREATE CONSTRAINT IF NOT EXISTS FOR (n:" ++ capitalizeFirst t ++ ") REQUIRE n.id IS UNIQUE;") ++
  [""] ++
  ["// Create entity nodes"] ++
  (g.entities.map entityCypherLines).flatten ++
  (if g.relationships.length > 0 then
    ["// Create relationships"] ++ (g.relationships.map relCypherLines).flatten
   else []) ++
  ["// Create indexes for better performance"] ++
  entityTypes.map (fun t =>
    "CREATE INDEX IF NOT EXISTS FOR (n:" ++ capitalizeFirst t ++ ") ON (n.label);")

/-- Models `generateFallbackCypher`: the deterministic, model-free Cypher
script. -/
def generateFallbackCypher (g : KGRawData) : String :=
  joinNl (generateFallbackCypherLines g)

/-- The graph is only read by `generateFallbackCypher` (`map`, `forEach`,
`new Set` — no in-place mutation), so the call leaves it unchanged. -/
def generateFallbackCypherEff (g : KGRawData) : String × KGRawData :=
  (generateFallbackCypher g, g)

/-! ### `extractCypherFromResponse` and `generateCypherCode` -/

/-- Left-to-right, non-overlapping removal of every occurrence of `tok`
followed by an optional line feed, modelling one global
`replace(/tok\n?/g, '')` pass.  Each step consumes input, so fuel equal to
the input length suffices. -/
def stripToken (tok : List Char) : ℕ → List Char → List Char
  | _, [] => []
  | 0, l => l
  | fuel + 1, c :: cs =>
    if tok.isPrefixOf (c :: cs) then
      let after := (c :: cs).drop tok.length
      let after2 := match after with
        | '\n' :: t => t
        | t => t
      stripToken tok fuel after2
    else c :: stripToken tok fuel cs

/-- Models the markdown-fence stripping of `extractCypherFromResponse`:
`replace(/```cypher\n?/g, '')` then `replace(/```\n?/g, '')`. -/
def stripFences (s : String) : String :=
  let l1 := stripToken "```cypher".data s.data.length s.data
  ⟨stripToken "```".data l1.length l1⟩

/-- Case-insensitive character comparison (the `i` regex flag). -/
def lowerEq (a b : Char) : Bool :=
  a.toLower == b.toLower

/-- Case-insensitive prefix test. -/
def isPrefixCaseless : List Char → List Char → Bool
  | [], _ => true
  | _ :: _, [] => false
  | k :: ks, c :: cs => lowerEq k c && isPrefixCaseless ks cs

/-- Case-insensitive substring test. -/
def containsCaseless (kw : List Char) : List Char → Bool
  | [] => isPrefixCaseless kw []
  | c :: cs => isPrefixCaseless kw (c :: cs) || containsCaseless kw cs

/-- Models `search(/(CREATE|MERGE|MATCH|WITH)/i)` followed by `substring`:
the suffix of the input starting at the leftmost case-insensitive occurrence
of any of the keywords, or `none` when there is no occurrence. -/
def findKwSuffix (kws : List (List Char)) : List Char → Option (List Char)
  | [] => none
  | c :: cs =>
    if kws.any (fun k => isPrefixCaseless k (c :: cs)) then some (c :: cs)
    else findKwSuffix kws cs

/-- Word-constituent characters for the regex `\b` boundary. -/
def isWordChar (c : Char) : Bool :=
  c == '_' || c.isAlpha || c.isDigit

/-- Does the text contain a case-insensitive occurrence of one of the
keywords delimited by `\b` word boundaries on both sides?  `prev` is the
character immediately before the current position. -/
def hasWordKwAux (kws : List (List Char)) : Option Char → List Char → Bool
  | _, [] => false
  | prev, c :: cs =>
    (kws.any (fun k =>
      isPrefixCaseless k (c :: cs) &&
      (match prev with
       | some p => !isWordChar p
       | none => true) &&
      !((c :: cs).drop k.length).head?.any isWordChar))
    || hasWordKwAux kws (some c) cs

/-- Models `/\b(CREATE|MERGE|MATCH|SET|WHERE|RETURN)\b/i.test(...)` (for the
given keyword list). -/
def hasWordKw (kws : List (List Char)) (l : List Char) : Bool :=
  hasWordKwAux kws none l

/-- The search alternatives of `extractCypherFromResponse`. -/
def cypherSearchKws : List (List Char) :=
  ["CREATE", "MERGE", "MATCH", "WITH"].map String.data

/-- The acceptance-test keywords of `extractCypherFromResponse` and
`validateCypherSyntax`. -/
def cypherValidKws : List (List Char) :=
  ["CREATE", "MERGE", "MATCH", "SET", "WHERE", "RETURN"].map String.data

/-- Models `extractCypherFromResponse`: strip markdown fences, drop any text
before the first `CREATE`/`MERGE`/`MATCH`/`WITH`, and accept only when a
recognized keyword occurs as a whole word; `null` (`none`) otherwise.  The
body is total, so the surrounding `try`/`catch` is unreachable. -/
def extractCypherFromResponse (response : String) : Option String :=
  let cleaned := stripFences response
  let cleaned2 : List Char :=
    match findKwSuffix cypherSearchKws cleaned.data with
    | some suffix => suffix
    | none => cleaned.data
  if hasWordKw cypherValidKws cleaned2 then some (jsTrim ⟨cleaned2⟩) else none

/-- Models `generateCypherCode` (`src/services/kg/cypher.ts`) as a function
of the completion outcome: a thrown completion error or a response without
recognizable Cypher falls back to the deterministic
`generateFallbackCypher`. -/
def generateCypherCode (g : KGRawData) (completion : Except String String) : String :=
  match completion with
  | .error _ => generateFallbackCypher g
  | .ok response =>
    match extractCypherFromResponse response with
    | some code => code
    | none => generateFallbackCypher g

/-! ### The knowledge-graph orchestrator `generateKG`
(`src/services/kg/index.ts`)

The completion engine is passed as `llm : String → Except String String`
(`Except.error` models a rejected `llmService.complete` call), and the
progress callback is modelled by collecting the `(progressPercent, message)`
emissions in order.  `Date.now()`-derived processing times are not
modelled. -/

/-- One prepared document tuple (`{id, title, content, type}`). -/
structure DocContent where
  id : String
  title : String
  content : String
  type : String

/-- An input document (`ScrapedDocument` projected to the fields
`generateKG` reads: `doc.id`, `doc.title`, `doc.content.text`,
`doc.contentType`). -/
structure DocModel where
  id : String
  title : String
  contentText : String
  contentType : String

/-- Models `content.slice(0, n)`. -/
def sliceStr (s : String) (n : ℕ) : String :=
  ⟨s.data.take n⟩

/-- The per-document block of `buildKGGenerationPrompt`, with the 3000
character excerpt and truncation ellipsis. -/
def docBlock (i : ℕ) (d : DocContent) : String :=
  "Document " ++ toString (i + 1) ++ ": \"" ++ d.title ++ "\" (" ++ d.type ++ ")\n---\n" ++
  sliceStr d.content 3000 ++ (if 3000 < d.content.length then "..." else "") ++ "\n---"

/-- The fixed instruction block of `buildKGGenerationPrompt` between the
document list and the end of the prompt. -/
def kgPromptTail : String := joinNl
  ["",
   "Your task is to analyze these documents and extract:",
   "1. **Entities**: People, organizations, locations, concepts, events, and other important items",
   "2. **Relationships**: Connections between entities with specific relationship types",
   "3. **Properties**: Important attributes and metadata for each entity",
   "4. **Summary**: Brief overview of main themes and findings",
   "",
   "Guidelines:",
   "- Extract entities that are central to the document's meaning",
   "- Focus on explicitly stated relationships and connections",
   "- Use clear, descriptive relationship types (e.g., \"works_for\", \"located_in\", \"causes\", \"leads_to\")",
   "- Provide importance scores (0.0-1.0) based on how central entities are to the content",
   "- Include temporal information when available",
   "- Create hierarchical structures where appropriate",
   "",
   "**IMPORTANT**: Respond with valid JSON only. No additional text or formatting.",
   "",
   "\x7b",
   "  \"entities\": [",
   "    \x7b",
   "      \"id\": \"unique_identifier\",",
   "      \"label\": \"Entity Name\",",
   "      \"type\": \"person|organization|location|concept|event|other\",",
   "      \"properties\": \x7b",
   "        \"description\": \"Brief description of the entity\",",
   "        \"aliases\": [\"alternative names if any\"],",
   "        \"attributes\": \x7b\x7d",
   "      \x7d,",
   "      \"importance\": 0.8",
   "    \x7d",
   "  ],",
   "  \"relationships\": [",
   "    \x7b",
   "      \"id\": \"rel_unique_id\",",
   "      \"source\": \"source_entity_id\",",
   "      \"target\": \"target_entity_id\",",
   "      \"type\": \"relationship_type\",",
   "      \"properties\": \x7b",
   "        \"description\": \"Description of the relationship\",",
   "        \"strength\": \"strong|medium|weak\",",
   "        \"temporal\": \"time information if relevant\"",
   "      \x7d,",
   "      \"weight\": 0.9",
   "    \x7d",
   "  ],",
   "  \"summary\": \"Brief summary of main themes and key findings\",",
   "  \"themes\": [\"theme1\", \"theme2\", \"theme3\"]",
   "\x7d"]

/-- Models `buildKGGenerationPrompt`. -/
def buildKGGenerationPrompt (documents : List DocContent) (userPrompt : String) : String :=
  let documentList := joinNlNl (documents.mapIdx docBlock)
  "You are a knowledge graph expert. Extract entities and relationships from the provided documents to create a comprehensive knowledge graph.\n\nUser Instructions:\n" ++
  userPrompt ++ "\n\nDocuments:\n" ++ documentList ++ "\n" ++ kgPromptTail

/-- Partial bridge from the dynamically typed parse result to the declared
`KGRawData` interfaces; succeeds exactly when every field carries its
declared type. -/
def toTypedEntity (e : EntityJ) : Option KGEntity :=
  match e.id, e.label, e.type, e.importance, e.description with
  | .str i, .str l, .str t, .num q, none => some ⟨i, l, t, e.properties, none, q⟩
  | .str i, .str l, .str t, .num q, some (.str d) => some ⟨i, l, t, e.properties, some d, q⟩
  | _, _, _, _, _ => none

/-- Typed view of a converted relationship, when well-typed. -/
def toTypedRel (r : RelJ) : Option KGRelationship :=
  match r.id, r.source, r.target, r.type, r.weight, r.description with
  | .str i, some (.str s), some (.str t), .str ty, .num w, none =>
    some ⟨i, s, t, ty, r.properties, w, none⟩
  | .str i, some (.str s), some (.str t), .str ty, .num w, some (.str d) =>
    some ⟨i, s, t, ty, r.properties, w, some d⟩
  | _, _, _, _, _, _ => none

/-- Typed view of a parsed graph, when every element is well-typed.  The
diagram step of `generateKG` is modelled through this bridge: for graphs
whose dynamic fields do not carry the declared types the diagram text (and
the comparator-on-`NaN` entity reordering) depends on JavaScript float
coercion and is left unmodelled; no claim inspects it. -/
def toTypedGraph (g : KGRawJ) : Option KGRawData := do
  let es ← g.entities.mapM toTypedEntity
  let rs ← g.relationships.mapM toTypedRel
  let summary : Option String := match g.summary with
    | .str s => some s
    | _ => none
  let themes : Option (List String) := match g.themes with
    | .arr ts => ts.mapM (fun t => match t with
      | .str s => some s
      | _ => none)
    | _ => none
  pure ⟨es, rs, summary, themes⟩

/-- The result record of `generateKG` together with the ordered list of
progress emissions.  `metadata` holds `(tokensUsed, model)`; the
`processingTime` field of the source is wall-clock time and is not
modelled. -/
structure GenKGResult where
  success : Bool
  stage : String
  error : Option String
  data : Option KGRawJ
  mermaidCode : Option String
  metadata : Option (ℕ × String)
  events : List (ℕ × String)

/-- Models `generateKG` (`src/services/kg/index.ts`).  The stages emit
progress at 10, 20, 40 and 50; a successful completion emits 80, then the
empty-response check runs, then 70 before parsing, then 90 and 100 on the
visualization path.  A rejected completion or an empty response returns a
failure without metadata; a `null` parse returns the parse failure; the
success record carries the parsed graph, diagram, and metadata.  The
renderer's in-place entity reordering (see `generateMermaidCodeEff`) is not
threaded back into `data`; the claims evaluated on `data` concern only its
emptiness. -/
def generateKG (freshE freshR : ℕ → String) (docs : List DocModel) (userPrompt : String)
    (llm : String → Except String String) : GenKGResult :=
  let ev4 := [(10, "Preparing documents..."),
    (20, "Building knowledge extraction prompt..."),
    (40, "Extracting entities and relationships..."),
    (50, "LLM processing... (this may take 30-60 seconds)")]
  let documentContent := docs.map (fun d => DocContent.mk d.id d.title d.contentText d.contentType)
  let prompt := buildKGGenerationPrompt documentContent userPrompt
  match llm prompt with
  | .error msg =>
    { success := false, stage := "raw",
      error := some ("LLM generation failed: " ++ msg),
      data := none, mermaidCode := none, metadata := none, events := ev4 }
  | .ok llmResponse =>
    let ev5 := ev4 ++ [(80, "LLM generation complete, processing results...")]
    if llmResponse == "" || jsTrim llmResponse == "" then
      { success := false, stage := "raw",
        error := some "LLM generation failed: LLM returned empty response",
        data := none, mermaidCode := none, metadata := none, events := ev5 }
    else
      let ev6 := ev5 ++ [(70, "Processing knowledge graph data...")]
      match parseKGResponse freshE freshR llmResponse with
      | none =>
        { success := false, stage := "raw",
          error := some "Failed to parse knowledge graph from LLM response",
          data := none, mermaidCode := none, metadata := none, events := ev6 }
      | some rawData =>
        let ev8 := ev6 ++ [(90, "Generating visualization..."),
          (100, "Knowledge graph generated successfully!")]
        { success := true, stage := "raw", error := none,
          data := some rawData,
          mermaidCode := (toTypedGraph rawData).map
            (fun tg => generateMermaidCode tg defaultMermaidCfg),
          metadata := some (estimateTokens (prompt ++ llmResponse), "llama-3.1-8b"),
          events := ev8 }

/-! ### Markdown and JSON document processing
(`DocumentProcessor.processMarkdown` / `processJSON`) -/

/-- Models `content.split('\n')`. -/
def jsSplitNl (s : String) : List String :=
  (s.data.splitOn '\n').map (fun l => ⟨l⟩)

/-- Models `line.match(/^(#{1,6})\s+(.+)$/)`, returning the title capture:
one to six hashes, at least one whitespace character, then at least one
further character (which, by backtracking, may be the last whitespace
character when nothing else follows). -/
def headerTitle (line : String) : Option String :=
  let hashes := line.data.takeWhile (fun c => c == '#')
  let rest := line.data.dropWhile (fun c => c == '#')
  if hashes.length = 0 ∨ 6 < hashes.length then none
  else
    let ws1 := rest.takeWhile wsB
    let rest2 := rest.dropWhile wsB
    if ws1.isEmpty then none
    else if !rest2.isEmpty then some ⟨rest2⟩
    else match ws1 with
      | _ :: _ :: _ => some ⟨[ws1.getLast!]⟩
      | _ => none

/-- One markdown section as built by `splitAtHeaders`. -/
structure MdSection where
  title : String
  content : String
  startLine : ℕ
  endLine : ℤ

/-- The line loop of `splitAtHeaders`: a header line closes the current
section (pushed only when its content is not blank) and opens a new one;
other lines accumulate. -/
def splitAtHeadersLoop : ℕ → MdSection → List String → List MdSection
  | i, cur, [] =>
    if jsTrim cur.content != "" then [⟨cur.title, cur.content, cur.startLine, (i : ℤ) - 1⟩]
    else []
  | i, cur, line :: rest =>
    match headerTitle line with
    | some title =>
      (if jsTrim cur.content != "" then [⟨cur.title, cur.content, cur.startLine, (i : ℤ) - 1⟩]
       else []) ++
      splitAtHeadersLoop (i + 1) ⟨title, line ++ "\n", i, (i : ℤ)⟩ rest
    | none =>
      splitAtHeadersLoop (i + 1) ⟨cur.title, cur.content ++ line ++ "\n", cur.startLine, cur.endLine⟩ rest

/-- Models `DocumentProcessor.splitAtHeaders`. -/
def splitAtHeaders (content : String) : List MdSection :=
  splitAtHeadersLoop 0 ⟨"Introduction", "", 0, 0⟩ (jsSplitNl content)

/-- The sentence-packing loop of `splitLargeSection` (indices are written as
0 and later reassigned by `processMarkdown`; the part label counts pushed
chunks). -/
def splitLargeLoop (cfg : ProcCfg) (title : String) :
    List DocumentChunk → String → List String → List DocumentChunk
  | chunks, current, [] =>
    if jsTrim current != "" then
      chunks ++ [⟨jsTrim current, 0, estimateTokens current,
        some (title ++ " (part " ++ toString (chunks.length + 1) ++ ")"), none, none⟩]
    else chunks
  | chunks, current, s :: rest =>
    let potential := current ++ s ++ " "
    if cfg.chunkSize < estimateTokens potential ∧ current ≠ "" then
      splitLargeLoop cfg title
        (chunks ++ [⟨jsTrim current, 0, estimateTokens current,
          some (title ++ " (part " ++ toString (chunks.length + 1) ++ ")"), none, none⟩])
        (createOverlap cfg current s) rest
    else
      splitLargeLoop cfg title chunks potential rest

/-- Models `DocumentProcessor.splitLargeSection`. -/
def splitLargeSection (cfg : ProcCfg) (content title : String) : List DocumentChunk :=
  splitLargeLoop cfg title [] "" (splitIntoSentences content)

/-- The section loop of `processMarkdown`: small sections become one chunk
with line metadata; oversized sections are split at sentence boundaries and
re-indexed, with `metadata.section` overridden by the section title. -/
def processMarkdownLoop (cfg : ProcCfg) : List DocumentChunk → List MdSection → List DocumentChunk
  | chunks, [] => chunks
  | chunks, sec :: rest =>
    if estimateTokens sec.content ≤ cfg.chunkSize then
      processMarkdownLoop cfg
        (chunks ++ [⟨sec.content, chunks.length, estimateTokens sec.content,
          some sec.title, some (sec.startLine : ℤ), some sec.endLine⟩]) rest
    else
      let sub := (splitLargeSection cfg sec.content sec.title).mapIdx
        (fun idx c => { c with index := chunks.length + idx, sectionLabel := some sec.title })
      processMarkdownLoop cfg (chunks ++ sub) rest

/-- Models `DocumentProcessor.processMarkdown`. -/
def processMarkdown (cfg : ProcCfg) (content : String) : List DocumentChunk :=
  processMarkdownLoop cfg [] (splitAtHeaders content)

/-- Insertion into the flattened map, modelling assignment to a JavaScript
object key: a duplicate key keeps its first position but takes the last
value. -/
def upsertKV (m : List (String × Json)) (k : String) (v : Json) : List (String × Json) :=
  if m.any (fun p => p.1 == k) then m.map (fun p => if p.1 == k then (k, v) else p)
  else m ++ [(k, v)]

/-- The worklist loop of `flattenJSON`: plain (non-array, non-null) object
values are expanded in place under dotted keys; everything else is a leaf.
Each step pops one item, so fuel bounding the total number of JSON nodes
suffices. -/
def flattenLoop : ℕ → List (String × Json) → List (String × Json) → List (String × Json)
  | _, acc, [] => acc
  | 0, acc, rest => acc ++ rest
  | fuel + 1, acc, (k, v) :: rest =>
    match v with
    | .obj kvs => flattenLoop fuel acc ((kvs.map (fun p => (k ++ "." ++ p.1, p.2))) ++ rest)
    | _ => flattenLoop fuel (upsertKV acc k v) rest

/-- Models `DocumentProcessor.flattenJSON` applied to the parsed document
(`for..in` enumerates object keys in insertion order, and index keys for
arrays and strings). -/
def flattenJSON (fuel : ℕ) (j : Json) : List (String × Json) :=
  let start : List (String × Json) :=
    match j with
    | .obj kvs => kvs
    | .arr xs => xs.mapIdx (fun i x => (toString i, x))
    | .str s => s.data.mapIdx (fun i c => (toString i, Json.str ⟨[c]⟩))
    | _ => []
  flattenLoop fuel [] start

/-- Models `Array.prototype.join(', ')`. -/
def joinCommaSp : List String → String
  | [] => ""
  | [s] => s
  | s :: rest => s ++ ", " ++ joinCommaSp rest

/-- Models `Array.prototype.join(',')`. -/
def joinComma : List String → String
  | [] => ""
  | [s] => s
  | s :: rest => s ++ "," ++ joinComma rest

/-- JavaScript `String(value)` coercion of a JSON value (arrays render their
elements comma-joined with `null` rendered empty; objects render as
`[object Object]`). -/
def jsToStringJSF : ℕ → Json → String
  | _, .null => "null"
  | _, .bool b => if b then "true" else "false"
  | _, .num q => jsNumToString q
  | _, .str s => s
  | 0, _ => ""
  | fuel + 1, .arr xs =>
    joinComma (xs.map (fun x =>
      match x with
      | .null => ""
      | y => jsToStringJSF fuel y))
  | _ + 1, .obj _ => "[object Object]"

/-- JSON string quoting as `JSON.stringify` performs it. -/
def stringifyStr (s : String) : String :=
  "\"" ++ ⟨s.data.flatMap (fun c =>
    if c == '\"' then ['\\', '\"']
    else if c == '\\' then ['\\', '\\']
    else if c == '\n' then ['\\', 'n']
    else if c == '\r' then ['\\', 'r']
    else if c == '\t' then ['\\', 't']
    else if c == '\x08' then ['\\', 'b']
    else if c == '\x0c' then ['\\', 'f']
    else if c.toNat < 32 then
      '\\' :: 'u' :: '0' :: '0' ::
        [(Nat.digitChar (c.toNat / 16)), (Nat.digitChar (c.toNat % 16))]
    else [c])⟩ ++ "\""

/-- Models `JSON.stringify` on parsed JSON values. -/
def jsonStringifyF : ℕ → Json → String
  | _, .null => "null"
  | _, .bool b => if b then "true" else "false"
  | _, .num q => jsNumToString q
  | _, .str s => stringifyStr s
  | 0, _ => ""
  | fuel + 1, .arr xs => "[" ++ joinComma (xs.map (jsonStringifyF fuel)) ++ "]"
  | fuel + 1, .obj kvs =>
    "\x7b" ++ joinComma (kvs.map (fun p => stringifyStr p.1 ++ ":" ++ jsonStringifyF fuel p.2)) ++ "\x7d"

/-- Models `DocumentProcessor.jsonToNaturalLanguage`. -/
def jsonToNaturalLanguage (fuel : ℕ) (m : List (String × Json)) : String :=
  joinSp (m.map (fun p =>
    match p.2 with
    | .arr xs =>
      "The " ++ p.1 ++ " contains " ++ toString xs.length ++ " items: " ++
        joinCommaSp ((xs.take 3).map (jsToStringJSF fuel)) ++
        (if 3 < xs.length then "..." else "") ++ "."
    | v => "The " ++ p.1 ++ " is set to " ++ jsonStringifyF fuel v ++ "."))

/-- Models `DocumentProcessor.processJSON`: parse, flatten, render as
natural-language sentences and chunk; invalid JSON degrades to plain-text
chunking of the raw content. -/
def processJSON (cfg : ProcCfg) (content : String) : List DocumentChunk :=
  match Json.parse content with
  | some data =>
    chunkText cfg (jsonToNaturalLanguage (content.length + 1) (flattenJSON (content.length + 1) data)) "json"
  | none => chunkText cfg content "json"

/-! ### `PromptTemplates` (`src/services/llm/utils/PromptTemplates.ts`) -/

/-- An `AnalysisTask`. -/
structure AnalysisTask where
  type : String
  instructions : Option String

/-- The `${task.instructions ? '\nLabel: ...' : ''}` suffix of the task
prompts (an empty instruction string is falsy and contributes nothing). -/
def instrSuffix (label : String) (instructions : Option String) : String :=
  match instructions with
  | some i => if i == "" then "" else "\n" ++ label ++ ": " ++ i
  | none => ""

/-- Models `PromptTemplates.getTaskPrompt`. -/
def getTaskPrompt (task : AnalysisTask) : String :=
  if task.type == "summarize" then
    joinNl
      ["You are a document analysis expert. Your task is to create a concise, accurate summary of the provided document.",
       "",
       "Guidelines:",
       "- Focus on key points and main ideas",
       "- Maintain the original context and meaning",
       "- Keep the summary between 100-300 words",
       "- Use clear, professional language"] ++
    instrSuffix "Additional instructions" task.instructions
  else if task.type == "extract_entities" then
    joinNl
      ["You are an expert at extracting entities from documents. Your task is to identify and classify all important entities in the text.",
       "",
       "Guidelines:",
       "- Identify people, organizations, locations, and key concepts",
       "- Classify each entity by type",
       "- Provide confidence scores (0.0-1.0)",
       "- Count mentions of each entity",
       "- Focus on entities that are central to the document's meaning"] ++
    instrSuffix "Additional instructions" task.instructions
  else if task.type == "analyze_sentiment" then
    joinNl
      ["You are a sentiment analysis expert. Your task is to analyze the emotional tone and sentiment of the provided document.",
       "",
       "Guidelines:",
       "- Determine overall sentiment (positive, negative, neutral)",
       "- Provide a sentiment score from -1.0 (very negative) to 1.0 (very positive)",
       "- Identify specific phrases that contribute to the sentiment",
       "- Consider context and nuanced expressions"] ++
    instrSuffix "Additional instructions" task.instructions
  else if task.type == "generate_keywords" then
    joinNl
      ["You are a keyword extraction expert. Your task is to identify the most important keywords and phrases from the document.",
       "",
       "Guidelines:",
       "- Extract 10-20 most relevant keywords",
       "- Include both single words and key phrases",
       "- Focus on terms that capture the document's core topics",
       "- Rank keywords by importance and frequency",
       "- Consider domain-specific terminology"] ++
    instrSuffix "Additional instructions" task.instructions
  else if task.type == "extract_relationships" then
    joinNl
      ["You are an expert at identifying relationships between entities in documents. Your task is to extract meaningful connections and relationships.",
       "",
       "Guidelines:",
       "- Identify relationships between people, organizations, concepts, and locations",
       "- Specify the type of relationship (works_for, located_in, causes, etc.)",
       "- Provide confidence scores for each relationship",
       "- Focus on explicitly stated relationships",
       "- Include temporal relationships when relevant"] ++
    instrSuffix "Additional instructions" task.instructions
  else
    "You are a document analysis expert. Analyze the provided document and extract relevant information based on the specified task." ++
    instrSuffix "Instructions" task.instructions

/-- Models `PromptTemplates.getOutputInstructions`. -/
def getOutputInstructions (task : AnalysisTask) : String :=
  if task.type == "summarize" then
    joinNl
      ["Please provide your response in the following JSON format:",
       "\x7b",
       "  \"summary\": \"Your concise summary here\",",
       "  \"keyPoints\": [\"key point 1\", \"key point 2\", \"key point 3\"],",
       "  \"wordCount\": number",
       "\x7d"]
  else if task.type == "extract_entities" then
    joinNl
      ["Please provide your response in the following JSON format:",
       "\x7b",
       "  \"entities\": [",
       "    \x7b",
       "      \"name\": \"Entity name\",",
       "      \"type\": \"person|organization|location|concept|other\",",
       "      \"confidence\": 0.95,",
       "      \"mentions\": 3",
       "    \x7d",
       "  ]",
       "\x7d"]
  else if task.type == "analyze_sentiment" then
    joinNl
      ["Please provide your response in the following JSON format:",
       "\x7b",
       "  \"sentiment\": 0.2,",
       "  \"label\": \"positive|negative|neutral\",",
       "  \"confidence\": 0.85,",
       "  \"keyPhrases\": [\"phrase that indicates sentiment\"]",
       "\x7d"]
  else if task.type == "generate_keywords" then
    joinNl
      ["Please provide your response in the following JSON format:",
       "\x7b",
       "  \"keywords\": [",
       "    \x7b",
       "      \"term\": \"keyword or phrase\",",
       "      \"importance\": 0.9,",
       "      \"frequency\": 5",
       "    \x7d",
       "  ]",
       "\x7d"]
  else if task.type == "extract_relationships" then
    joinNl
      ["Please provide your response in the following JSON format:",
       "\x7b",
       "  \"relationships\": [",
       "    \x7b",
       "      \"source\": \"Entity A\",",
       "      \"target\": \"Entity B\",",
       "      \"type\": \"relationship_type\",",
       "      \"confidence\": 0.8",
       "    \x7d",
       "  ]",
       "\x7d"]
  else
    "Please provide your response in a clear, structured JSON format appropriate for the analysis task."

/-- Models `PromptTemplates.buildAnalysisPrompt`. -/
def buildAnalysisPrompt (content : String) (task : AnalysisTask) : String :=
  getTaskPrompt task ++ "\n\nDocument Content:\n---\n" ++ content ++ "\n---\n\n" ++
  getOutputInstructions task

/-- A document handed to `buildMultiDocumentPrompt`. -/
structure MultiDoc where
  id : String
  content : String
  type : String

/-- Models `PromptTemplates.buildMultiDocumentPrompt`. -/
def buildMultiDocumentPrompt (documents : List MultiDoc) (task : String) : String :=
  let docList := joinNlNl (documents.mapIdx (fun i d =>
    "Document " ++ toString (i + 1) ++ " (ID: " ++ d.id ++ "):\n---\n" ++ d.content ++ "\n---"))
  "You are a multi-document analysis expert. Your task is to " ++ task ++
  " across the following documents.\n\n" ++ docList ++
  "\n\nPlease analyze these documents collectively and provide insights that consider their relationships, similarities, and differences.\n\nProvide your response in a structured JSON format with clear sections for each type of analysis requested."

/-- Models `PromptTemplates.buildKnowledgeGraphPrompt`. -/
def buildKnowledgeGraphPrompt (content : String) : String :=
  "You are a knowledge graph expert. Your task is to extract entities and relationships from the provided content to build a comprehensive knowledge graph.\n\nDocument Content:\n---\n" ++
  content ++ "\n---\n\n" ++ joinNl
    ["Guidelines:",
     "- Extract all important entities (people, organizations, locations, concepts, events)",
     "- Identify relationships between entities with specific relationship types",
     "- Provide confidence scores for both entities and relationships",
     "- Create a hierarchical structure where appropriate",
     "- Include temporal relationships when dates/times are mentioned",
     "",
     "Please provide your response in the following JSON format:",
     "\x7b",
     "  \"nodes\": [",
     "    \x7b",
     "      \"id\": \"unique_id\",",
     "      \"label\": \"Entity Name\",",
     "      \"type\": \"person|organization|location|concept|event|other\",",
     "      \"properties\": \x7b",
     "        \"description\": \"Brief description\",",
     "        \"aliases\": [\"alternative names\"],",
     "        \"importance\": 0.8",
     "      \x7d",
     "    \x7d",
     "  ],",
     "  \"edges\": [",
     "    \x7b",
     "      \"source\": \"source_entity_id\",",
     "      \"target\": \"target_entity_id\",",
     "      \"relationship\": \"relationship_type\",",
     "      \"weight\": 0.9,",
     "      \"properties\": \x7b",
     "        \"description\": \"Relationship description\",",
     "        \"temporal\": \"time information if relevant\"",
     "      \x7d",
     "    \x7d",
     "  ]",
     "\x7d"]

/-- Models `PromptTemplates.buildQueryPrompt`. -/
def buildQueryPrompt (query context : String) : String :=
  "You are a helpful AI assistant with access to document context. Answer the user's question based on the provided context.\n\nContext:\n---\n" ++
  context ++ "\n---\n\nUser Question: " ++ query ++ "\n\n" ++ joinNl
    ["Guidelines:",
     "- Base your answer primarily on the provided context",
     "- If the context doesn't contain sufficient information, clearly state this",
     "- Provide specific references to relevant parts of the context",
     "- Be accurate and avoid making assumptions beyond the given information",
     "- If asked for analysis or interpretation, explain your reasoning",
     "",
     "Please provide a clear, helpful response to the user's question."]

/-! ### `LLMService` (`src/services/llm/LLMService.ts`)

The mutable service state is the pair (`isInitialized`, backend-present);
each public operation is a function of that state, an abstract completion
backend `backend : String → String`, and its request.  Every operation
returns its outcome, the state after the call, and the number of backend
completion invocations it performed. -/

/-- The observable mutable state of an `LLMService` instance. -/
structure LLMState where
  isInitialized : Bool
  backendPresent : Bool
deriving Repr, DecidableEq

/-- The state of a freshly constructed service (`backend` unset,
`isInitialized = false`). -/
def initialLLMState : LLMState := ⟨false, false⟩

/-- Models `LLMService.initialize`: the backend field is assigned before the
backend's own initialization is awaited, so a failed initialization leaves
the backend present but `isInitialized` false and rethrows. -/
def initLLMService (_s : LLMState) (outcome : Except String Unit) :
    Except String Unit × LLMState :=
  match outcome with
  | .ok _ => (.ok (), ⟨true, true⟩)
  | .error e => (.error e, ⟨false, true⟩)

/-- Models `LLMService.dispose`: the backend is released and cleared and
`isInitialized` reset. -/
def disposeLLM (_s : LLMState) : LLMState := ⟨false, false⟩

/-- The common initialization guard
`if (!this.isInitialized || !this.backend) throw ...`. -/
def notReady (s : LLMState) : Bool :=
  !s.isInitialized || !s.backendPresent

/-- An `AnalysisRequest` (the sampling options only tune the backend call
and are not modelled). -/
structure AnalysisRequest where
  content : String
  type : String
  task : AnalysisTask

/-- Models `LLMService.processDocumentContent`. -/
def processDocumentContent (cfg : ProcCfg) (content typ : String) : List DocumentChunk :=
  if typ == "markdown" then processMarkdown cfg content
  else if typ == "json" then processJSON cfg content
  else processText cfg content

/-- Models `LLMService.analyzeDocument`: guard, chunk, select content (the
first three chunks joined by blank lines when the document spans more than
one chunk), build the prompt, complete once, and parse. -/
def analyzeDocument (s : LLMState) (backend : String → String) (req : AnalysisRequest) :
    Except String Json × LLMState × ℕ :=
  if notReady s then (.error "LLM Service not initialized", s, 0)
  else
    let chunks := processDocumentContent defaultProcCfg req.content req.type
    let contentToAnalyze :=
      if 1 < chunks.length then joinNlNl ((chunks.take 3).map (fun c => c.content))
      else req.content
    let prompt := buildAnalysisPrompt contentToAnalyze req.task
    let response := backend prompt
    (.ok (parseAnalysisResponse response req.task.type), s, 1)

/-- A `ProcessingRequest`. -/
structure ProcessingRequest where
  documents : List MultiDoc
  taskType : String

/-- Models `LLMService.processMultipleDocuments`. -/
def processMultipleDocuments (s : LLMState) (backend : String → String)
    (req : ProcessingRequest) : Except String Json × LLMState × ℕ :=
  if notReady s then (.error "LLM Service not initialized", s, 0)
  else
    let prompt := buildMultiDocumentPrompt req.documents req.taskType
    let response := backend prompt
    (.ok (parseMultiDocumentResponse response), s, 1)

/-- The `KnowledgeGraph` record assembled by
`LLMService.generateKnowledgeGraph` (`generatedAt: new Date()` is wall-clock
and is not modelled; `totalNodes`/`totalEdges` are `undefined` when the
dynamic `nodes`/`edges` values have no `length`). -/
structure KnowledgeGraphM where
  nodes : Json
  edges : Json
  totalNodes : Option ℕ
  totalEdges : Option ℕ
  modelName : String

/-- The `.length` property of a dynamic value, where defined. -/
def jsLen : Json → Option ℕ
  | .arr xs => some xs.length
  | .str s => some s.length
  | _ => none

/-- Member lookup on a parsed JSON value (the parsed span is always an
object, so no `TypeError` can occur here). -/
def memberOf (j : Json) (k : String) : Option Json :=
  match j with
  | .obj kvs => jsLookup k kvs
  | _ => none

/-- Models `LLMService.generateKnowledgeGraph`: guard, one completion,
`parseJSONResponse`, and the `parsed && parsed.nodes && parsed.edges`
acceptance check; every failure path returns `null` (`none`). -/
def generateKnowledgeGraph (s : LLMState) (backend : String → String) (modelName : String)
    (content : String) : Except String (Option KnowledgeGraphM) × LLMState × ℕ :=
  if notReady s then (.error "LLM Service not initialized", s, 0)
  else
    let prompt := buildKnowledgeGraphPrompt content
    let response := backend prompt
    match parseJSONResponse response with
    | none => (.ok none, s, 1)
    | some parsed =>
      if truthy parsed then
        match memberOf parsed "nodes", memberOf parsed "edges" with
        | some nodes, some edges =>
          if truthy nodes && truthy edges then
            (.ok (some ⟨nodes, edges, jsLen nodes, jsLen edges, modelName⟩), s, 1)
          else (.ok none, s, 1)
        | _, _ => (.ok none, s, 1)
      else (.ok none, s, 1)

/-- Models `LLMService.queryDocuments`: guard, one completion, and the raw
response. -/
def queryDocuments (s : LLMState) (backend : String → String) (query context : String) :
    Except String String × LLMState × ℕ :=
  if notReady s then (.error "LLM Service not initialized", s, 0)
  else (.ok (backend (buildQueryPrompt query context)), s, 1)

/-- Models `LLMService.complete`: guard, then delegate to the backend. -/
def complete (s : LLMState) (backend : String → String) (prompt : String) :
    Except String String × LLMState × ℕ :=
  if notReady s then (.error "LLM Service not initialized", s, 0)
  else (.ok (backend prompt), s, 1)

/-! ### Concrete inputs used in counterexamples and witnesses -/

/-- A constant fresh-token supply used in concrete evaluations. -/
def supplyX : ℕ → String := fun _ => "x"

/-- A full-importance person entity with id `a`. -/
def eA : KGEntity := ⟨"a", "Node A", "person", .obj [], none, 1⟩

/-- A half-importance organization entity with id `b`. -/
def eB : KGEntity := ⟨"b", "Node B", "organization", .obj [], none, mkRat 1 2⟩

/-- A low-importance entity (id `a`). -/
def eLow : KGEntity := ⟨"a", "Low", "person", .obj [], none, mkRat 1 10⟩

/-- A high-importance entity (id `b`). -/
def eHigh : KGEntity := ⟨"b", "High", "person", .obj [], none, mkRat 9 10⟩

/-- A relationship between the two known ids `a` and `b`. -/
def rAB : KGRelationship := ⟨"r1", "a", "b", "knows", .obj [], mkRat 9 10, none⟩

/-- A dangling relationship: its target `zzz` is no entity's id. -/
def rDangling : KGRelationship := ⟨"r2", "a", "zzz", "knows", .obj [], mkRat 9 10, none⟩

/-- A graph with both endpoints of its one relationship present. -/
def gBoth : KGRawData := ⟨[eA, eB], [rAB], none, none⟩

/-- A one-entity graph with a dangling relationship. -/
def gDangling : KGRawData := ⟨[eA], [rDangling], none, none⟩

/-- A two-entity graph whose entities are not sorted by importance. -/
def gUnsorted : KGRawData := ⟨[eLow, eHigh], [], none, none⟩

/-- A single entity for the one-entity, zero-relationship Cypher scenario. -/
def eSolo : KGEntity := ⟨"e1", "Entity One", "person", .obj [], some "desc", mkRat 7 10⟩

/-- A one-entity, zero-relationship graph. -/
def gSolo : KGRawData := ⟨[eSolo], [], none, none⟩

/-- A well-formed model response whose entity and relationship arrays are
both empty. -/
def respEmptyKG : String := "\x7b\"entities\": [], \"relationships\": []\x7d"

/-- A completion engine that always returns the empty-graph response. -/
def llmEmptyKG : String → Except String String := fun _ => .ok respEmptyKG

/-- A well-formed model response in which two entities carry the same id. -/
def respDupIds : String :=
  "\x7b\"entities\": [\x7b\"id\": \"a\"\x7d, \x7b\"id\": \"a\"\x7d], \"relationships\": []\x7d"

/-- The truthy raw `id` member of a raw entity value, when present. -/
def rawTruthyId (e : Json) : Option Json :=
  match e with
  | .obj kvs =>
    match jsLookup "id" kvs with
    | some v => if truthy v then some v else none
    | none => none
  | _ => none

/-- The id the entity conversion assigns to the raw entity at supply index
`i`: the raw truthy id verbatim when present, else the synthesized
`entity_<token>`. -/
def expectedId (freshE : ℕ → String) (i : ℕ) (e : Json) : Json :=
  (rawTruthyId e).getD (.str ("entity_" ++ freshE i))

/-- The expected id list of a raw entity array starting at supply index
`i`. -/
def idsFrom (freshE : ℕ → String) : ℕ → List Json → List Json
  | _, [] => []
  | i, e :: es => expectedId freshE i e :: idsFrom freshE (i + 1) es

/-- A raw entity array with one present id and one omitted id. -/
def rawsW : List Json := [.obj [("id", .str "a")], .obj []]

/-- The conversion of `rawsW` under the constant supply `supplyX`. -/
def entsW : List EntityJ :=
  [⟨.str "a", .str "Unknown", .str "other", .obj [], none, .num (mkRat 1 2)⟩,
   ⟨.str "entity_x", .str "Unknown", .str "other", .obj [], none, .num (mkRat 1 2)⟩]

/-- The accumulated `currentChunk` after packing sentences without a split:
each sentence followed by one space. -/
def trailJoin : List String → String
  | [] => ""
  | s :: rest => s ++ " " ++ trailJoin rest

/-- A string of the form the sentence splitter outputs: nonempty with
non-whitespace first and last characters. -/
def trimFixed (s : String) : Prop :=
  (∃ c, s.data.head? = some c ∧ wsB c = false) ∧
  (∃ c, s.data.reverse.head? = some c ∧ wsB c = false)

/-- A character that is neither a sentence terminator nor whitespace, so the
sentence-splitting regular expression passes over it. -/
def plainB (c : Char) : Bool :=
  !sentB c && !wsB c

/-- First sentence of the size counterexample: 12004 characters, hence 3001
estimated tokens, just above the 3000-token budget. -/
def c5sentA : String :=
  ⟨List.replicate 12004 'a'⟩

/-- Second sentence of the size counterexample, same length. -/
def c5sentB : String :=
  ⟨List.replicate 12004 'b'⟩

/-- Two-sentence input on which the overlap-seeded second chunk exceeds the
token budget by more than one sentence. -/
def c5oversized : String :=
  c5sentA ++ ". " ++ c5sentB

/-- A `currentChunk` value that was seeded without passing the size check:
either a single sentence (with its trailing space) accumulated while the
chunk was empty, or the overlap carry-over of the previous chunk followed by
one sentence. -/
def seedChunk (cfg : ProcCfg) (sents0 : List String) (cur : String) : Prop :=
  (∃ s ∈ sents0, cur = s ++ " ") ∨
  (∃ prev, ∃ s ∈ sents0, cur = createOverlap cfg prev s)

/-- The single chunk produced for the short two-sentence input of the C5
witness. -/
def c5chunk : DocumentChunk :=
  ⟨joinSp (splitIntoSentences "Hi there. Bye."), 0,
    estimateTokens (trailJoin (splitIntoSentences "Hi there. Bye.")),
    some ("text" ++ "-chunk-" ++ toString 1), none, none⟩

/-! ## Theorems for the specification claims -/

/-! Sanity evaluations of the embedded functions on concrete inputs. -/

example : (processText defaultProcCfg "A. B.").map (fun c => c.content) = ["A B."] := by decide

example : splitIntoSentences "Hello there. General!  Kenobi? " = ["Hello there", "General", "Kenobi"] := by decide

example : Json.parse "\x7b\"a\": [1, true, null]\x7d" =
    some (.obj [("a", .arr [.num 1, .bool true, .null])]) := by rfl

example : Json.parse "\x7b\"k\": 0.5\x7d" = some (.obj [("k", .num (mkRat 1 2))]) := by rfl

example : Json.parse "not json" = none := by rfl

example : Json.parse "\x7b\"a\": 1" = none := by rfl

example : extractJsonSpan "noise \x7b\"a\": 1\x7d trailing" = some "\x7b\"a\": 1\x7d" := by decide

example : extractJsonSpan "pre \x7b x \x7d mid \x7b y \x7d post" = some "\x7b x \x7d mid \x7b y \x7d" := by decide

example : extractJsonSpan "plain prose" = none := by decide

example :
    (parseKGResponse (fun _ => "t") (fun _ => "t")
        "\x7b\"entities\": [\x7b\"id\": \"a\"\x7d], \"relationships\": []\x7d").map
      (fun g => g.entities.length) = some 1 := by rfl

example : parseKGResponse (fun _ => "t") (fun _ => "t") "no json at all" = none := by rfl

example : extractCypherFromResponse "no keywords here" = none := by decide

example : extractCypherFromResponse "sure! ```cypher\nMERGE (n);```" = some "MERGE (n);" := by decide

/-- The importance key equals the importance (the `|| 0` default only
rewrites `0` to `0`). -/
theorem impKey_eq (e : KGEntity) : impKey e = e.importance := by
  unfold impKey
  split
  · next h => exact (eq_of_beq h).symm
  · rfl

/-- The weight key equals the weight (see `impKey_eq`). -/
theorem wKey_eq (r : KGRelationship) : wKey r = r.weight := by
  unfold wKey
  split
  · next h => exact (eq_of_beq h).symm
  · rfl

/-- C8: for every graph and limits, the diagram keeps exactly
`min maxNodes |entities|` entities — so exactly `maxNodes` of them whenever
at least `maxNodes` are present, e.g. 50 of 80 — and every kept entity has
importance at least that of every dropped entity; and among the
relationships whose two endpoints both survive node selection it keeps
exactly the top `min maxEdges |surviving|` by weight: every kept
relationship has weight at least that of every surviving-but-dropped one. -/
theorem c8_selection (g : KGRawData) (cfg : MermaidCfg) :
    ∃ droppedE droppedR,
      g.entities.Perm (limitedEntities g cfg ++ droppedE) ∧
      (limitedEntities g cfg).length = min cfg.maxNodes g.entities.length ∧
      (∀ e ∈ limitedEntities g cfg, ∀ d ∈ droppedE, d.importance ≤ e.importance) ∧
      (survivingRels g cfg).Perm (limitedRelationships g cfg ++ droppedR) ∧
      (limitedRelationships g cfg).length = min cfg.maxEdges (survivingRels g cfg).length ∧
      (∀ r ∈ limitedRelationships g cfg, ∀ d ∈ droppedR, d.weight ≤ r.weight) := by
  refine ⟨(sortedEntities g).drop cfg.maxNodes,
    ((survivingRels g cfg).insertionSort relRel).drop cfg.maxEdges, ?_, ?_, ?_, ?_, ?_, ?_⟩
  · rw [limitedEntities, List.take_append_drop]
    exact (List.perm_insertionSort entityRel g.entities).symm
  · rw [limitedEntities, List.length_take]
    congr 1
    exact (List.perm_insertionSort entityRel g.entities).length_eq
  · intro e he d hd
    have hsorted : (sortedEntities g).Pairwise entityRel :=
      List.sorted_insertionSort entityRel g.entities
    rw [← List.take_append_drop cfg.maxNodes (sortedEntities g), List.pairwise_append] at hsorted
    have := hsorted.2.2 e he d hd
    rw [entityRel, impKey_eq, impKey_eq] at this
    exact this
  · rw [limitedRelationships, List.take_append_drop]
    exact (List.perm_insertionSort relRel (survivingRels g cfg)).symm
  · rw [limitedRelationships, List.length_take]
    congr 1
    exact (List.perm_insertionSort relRel (survivingRels g cfg)).length_eq
  · intro r hr d hd
    have hsorted : ((survivingRels g cfg).insertionSort relRel).Pairwise relRel :=
      List.sorted_insertionSort relRel (survivingRels g cfg)
    rw [← List.take_append_drop cfg.maxEdges ((survivingRels g cfg).insertionSort relRel),
      List.pairwise_append] at hsorted
    have := hsorted.2.2 r hr d hd
    rw [relRel, wKey_eq, wKey_eq] at this
    exact this

/-- C10: every `LLMService` operation that needs the engine fails
immediately with the `LLM Service not initialized` error when invoked on a
state in which initialization has not succeeded (or which `dispose` has
reset): no backend completion is invoked (the call count is 0) and the
service state is returned unchanged; moreover the freshly constructed state
and every disposed state satisfy that guard. -/
theorem c10_guard (s s' : LLMState) (backend : String → String) (modelName : String)
    (req : AnalysisRequest) (preq : ProcessingRequest) (content q ctx prompt : String)
    (h : s.isInitialized = false ∨ s.backendPresent = false) :
    analyzeDocument s backend req = (.error "LLM Service not initialized", s, 0) ∧
    processMultipleDocuments s backend preq = (.error "LLM Service not initialized", s, 0) ∧
    generateKnowledgeGraph s backend modelName content =
      (.error "LLM Service not initialized", s, 0) ∧
    queryDocuments s backend q ctx = (.error "LLM Service not initialized", s, 0) ∧
    complete s backend prompt = (.error "LLM Service not initialized", s, 0) ∧
    notReady initialLLMState = true ∧ notReady (disposeLLM s') = true := by
  have hn : notReady s = true := by
    unfold notReady
    rcases h with h | h <;> simp [h]
  refine ⟨?_, ?_, ?_, ?_, ?_, rfl, rfl⟩
  · simp [analyzeDocument, hn]
  · simp [processMultipleDocuments, hn]
  · simp [generateKnowledgeGraph, hn]
  · simp [queryDocuments, hn]
  · simp [complete, hn]

/-- Witness for C10 at the freshly constructed state. -/
theorem c10_witness :
    analyzeDocument initialLLMState (fun _ => "") ⟨"", "text", ⟨"summarize", none⟩⟩ =
      (.error "LLM Service not initialized", initialLLMState, 0) ∧
    processMultipleDocuments initialLLMState (fun _ => "") ⟨[], "merge"⟩ =
      (.error "LLM Service not initialized", initialLLMState, 0) ∧
    generateKnowledgeGraph initialLLMState (fun _ => "") "m" "doc" =
      (.error "LLM Service not initialized", initialLLMState, 0) ∧
    queryDocuments initialLLMState (fun _ => "") "q" "ctx" =
      (.error "LLM Service not initialized", initialLLMState, 0) ∧
    complete initialLLMState (fun _ => "") "p" =
      (.error "LLM Service not initialized", initialLLMState, 0) ∧
    notReady initialLLMState = true ∧ notReady (disposeLLM initialLLMState) = true :=
  c10_guard initialLLMState initialLLMState (fun _ => "") "m"
    ⟨"", "text", ⟨"summarize", none⟩⟩ ⟨[], "merge"⟩ "doc" "q" "ctx" "p" (Or.inl rfl)

/-- C4, counterexample to the query-compiler half: `generateFallbackCypher`
emits a `MATCH` relationship statement whose target id `zzz` is not among
the emitted node ids — dangling relationships are not dropped on the
deterministic Cypher path. -/
theorem c4_counterexample :
    "MATCH (source \x7bid: \"a\"\x7d), (target \x7bid: \"zzz\"\x7d)" ∈
      generateFallbackCypherLines gDangling ∧
    "zzz" ∉ gDangling.entities.map (fun e => e.id) := by
  constructor
  · decide
  · decide

/-- C4 amended: dangling-edge exclusion holds for the diagram renderer —
every relationship kept by `generateMermaidCode` has both endpoints among
the emitted node ids — but not for the deterministic Cypher path, which
emits every relationship (see the counterexample). -/
theorem c4_amended (g : KGRawData) (cfg : MermaidCfg) (r : KGRelationship)
    (hr : r ∈ limitedRelationships g cfg) :
    r.source ∈ limitedEntityIds g cfg ∧ r.target ∈ limitedEntityIds g cfg := by
  have h1 : r ∈ (survivingRels g cfg).insertionSort relRel := List.take_subset _ _ hr
  have h2 : r ∈ survivingRels g cfg := (List.perm_insertionSort relRel _).subset h1
  have h3 := List.of_mem_filter h2
  rw [Bool.and_eq_true] at h3
  constructor
  · simpa using h3.1
  · simpa using h3.2

/-- Witness for C4 amended at a concrete two-entity graph. -/
theorem c4_witness :
    rAB ∈ limitedRelationships gBoth defaultMermaidCfg ∧
    rAB.source ∈ limitedEntityIds gBoth defaultMermaidCfg ∧
    rAB.target ∈ limitedEntityIds gBoth defaultMermaidCfg := by
  have hmem : rAB ∈ limitedRelationships gBoth defaultMermaidCfg := by
    have h : limitedRelationships gBoth defaultMermaidCfg = [rAB] := rfl
    rw [h]
    exact List.mem_singleton.mpr rfl
  exact ⟨hmem, c4_amended gBoth defaultMermaidCfg rAB hmem⟩

/-- C7, counterexample: `generateMermaidCode` sorts `kgData.entities` in
place, so after the call the graph's entities array is reordered (here the
ids flip from `[a, b]` to `[b, a]`). -/
theorem c7_counterexample :
    (generateMermaidCodeEff gUnsorted defaultMermaidCfg).2.entities.map (fun e => e.id) ≠
      gUnsorted.entities.map (fun e => e.id) := by
  decide

/-- C7 amended: `generateFallbackCypher` leaves the graph unchanged, and
`generateMermaidCode` leaves the relationships array unchanged, but it
reorders the entities array in place into descending-importance order (a
permutation of the original; the original order is preserved only when the
array is already sorted). -/
theorem c7_amended (g : KGRawData) (cfg : MermaidCfg) :
    (generateFallbackCypherEff g).2 = g ∧
    (generateMermaidCodeEff g cfg).2.relationships = g.relationships ∧
    (generateMermaidCodeEff g cfg).2.entities.Perm g.entities ∧
    (generateMermaidCodeEff g cfg).2.entities.Pairwise
      (fun a b => b.importance ≤ a.importance) := by
  refine ⟨rfl, rfl, List.perm_insertionSort entityRel g.entities, ?_⟩
  have h := List.sorted_insertionSort entityRel g.entities
  refine h.imp ?_
  intro a b hab
  rw [entityRel, impKey_eq, impKey_eq] at hab
  exact hab

/-- C1, counterexample: a well-formed model response with empty entity and
relationship arrays parses successfully, and `generateKG` returns a
successful result carrying the empty graph (no could-not-extract error is
raised). -/
theorem c1_counterexample :
    (generateKG supplyX supplyX [] "extract" llmEmptyKG).success = true ∧
    (generateKG supplyX supplyX [] "extract" llmEmptyKG).error = none ∧
    ((generateKG supplyX supplyX [] "extract" llmEmptyKG).data.map
      (fun g => (g.entities.length, g.relationships.length))) = some (0, 0) :=
  ⟨rfl, rfl, rfl⟩

/-- C1 amended: the parse-failure signal of `parseKGResponse` is `null`
(`none`), not an empty graph; whenever the completion succeeds with a
non-blank response on which `parseKGResponse` returns `null`, `generateKG`
returns a failed result with the explicit parse error and no data.  (A
well-formed response with empty arrays is not `null` and yields a successful
result carrying an empty graph — see the counterexample.) -/
theorem c1_amended (freshE freshR : ℕ → String) (docs : List DocModel) (up : String)
    (llm : String → Except String String) (resp : String)
    (h1 : llm (buildKGGenerationPrompt
      (docs.map (fun d => DocContent.mk d.id d.title d.contentText d.contentType)) up) =
      .ok resp)
    (h2 : (resp == "" || jsTrim resp == "") = false)
    (h3 : parseKGResponse freshE freshR resp = none) :
    (generateKG freshE freshR docs up llm).success = false ∧
    (generateKG freshE freshR docs up llm).error =
      some "Failed to parse knowledge graph from LLM response" ∧
    (generateKG freshE freshR docs up llm).data = none := by
  unfold generateKG
  simp [h1, h2, h3]

/-- Witness for C1 amended: a prose-only completion fails the run with the
parse error. -/
theorem c1_witness :
    (generateKG supplyX supplyX [] "go" (fun _ => .ok "no graph here")).success = false ∧
    (generateKG supplyX supplyX [] "go" (fun _ => .ok "no graph here")).error =
      some "Failed to parse knowledge graph from LLM response" ∧
    (generateKG supplyX supplyX [] "go" (fun _ => .ok "no graph here")).data = none :=
  c1_amended supplyX supplyX [] "go" (fun _ => .ok "no graph here") "no graph here"
    rfl (by decide) rfl

/-- C3, counterexample: on the successful path `generateKG` emits the
percent sequence 10, 20, 40, 50, 80, 70, 90, 100, which is not monotonically
non-decreasing (80 is followed by 70). -/
theorem c3_counterexample :
    ((generateKG supplyX supplyX [] "extract" llmEmptyKG).events.map Prod.fst) =
      [10, 20, 40, 50, 80, 70, 90, 100] ∧
    ¬ List.Pairwise (fun a b => a ≤ b) [10, 20, 40, 50, 80, 70, 90, 100] :=
  ⟨rfl, by decide⟩

/-- C3 amended: within one `generateKG` run the emitted `progressPercent`
sequence is monotonically non-decreasing except for the single 70%
(`Processing knowledge graph data...`) emission, which follows the 80%
generation-complete emission on every path that reaches parsing: removing
the 70% emission leaves a monotone sequence on every execution path. -/
theorem c3_amended (freshE freshR : ℕ → String) (docs : List DocModel) (up : String)
    (llm : String → Except String String) :
    List.Pairwise (fun a b => a ≤ b)
      (((generateKG freshE freshR docs up llm).events.map Prod.fst).filter
        (fun p => p ≠ 70)) := by
  simp only [generateKG]
  split
  · dsimp only
    decide
  · split
    · dsimp only
      decide
    · split
      · dsimp only
        decide
      · dsimp only
        decide

/-- C6, counterexample: for a raw response that is not well-formed
structured data the knowledge-graph parser returns `null` (`none`), not the
typed empty `{entities: [], relationships: []}` fallback value. -/
theorem c6_counterexample :
    parseKGResponse supplyX supplyX "plain prose response" = none ∧
    some (KGRawJ.mk [] [] (.str "") (.arr [])) ≠ (none : Option KGRawJ) :=
  ⟨rfl, by simp⟩

/-- C6 amended: for every response without a decodable JSON span,
`parseAnalysisResponse` returns the task's typed fallback and never raises
(for `summarize`: the raw text as summary, empty key points, and a
word-count estimate), while `parseKGResponse` also never raises but signals
the failure with `null` rather than an empty graph structure. -/
theorem c6_amended (resp task : String) (freshE freshR : ℕ → String)
    (h : (extractJsonSpan resp).bind Json.parse = none) :
    parseAnalysisResponse resp task = createFallbackResponse resp task ∧
    parseAnalysisResponse resp "summarize" =
      .obj [("summary", .str resp), ("keyPoints", .arr []),
        ("wordCount", .num (mkRat (wordSplitCount resp) 1))] ∧
    parseKGResponse freshE freshR resp = none := by
  have key : ∀ t, parseAnalysisResponse resp t = createFallbackResponse resp t := by
    intro t
    unfold parseAnalysisResponse
    cases hs : extractJsonSpan resp with
    | none => rfl
    | some span =>
      have hp : Json.parse span = none := by simpa [hs] using h
      simp [hp]
  refine ⟨key task, ?_, ?_⟩
  · rw [key "summarize"]
    rfl
  · unfold parseKGResponse
    cases hs : extractJsonSpan resp with
    | none => rfl
    | some span =>
      have hp : Json.parse span = none := by simpa [hs] using h
      simp [hp]

/-- Witness for C6 amended at a prose-only response. -/
theorem c6_witness :
    parseAnalysisResponse "just words, no data" "extract_entities" =
      createFallbackResponse "just words, no data" "extract_entities" ∧
    parseAnalysisResponse "just words, no data" "summarize" =
      .obj [("summary", .str "just words, no data"), ("keyPoints", .arr []),
        ("wordCount", .num (mkRat (wordSplitCount "just words, no data") 1))] ∧
    parseKGResponse supplyX supplyX "just words, no data" = none :=
  c6_amended "just words, no data" "extract_entities" supplyX supplyX rfl

/-- The id assigned by `convEntity`. -/
theorem convEntity_id (fresh : String) (e : Json) (a : EntityJ)
    (h : convEntity fresh e = .ok a) :
    a.id = (rawTruthyId e).getD (.str ("entity_" ++ fresh)) := by
  cases e with
  | null => simp [convEntity] at h
  | obj kvs =>
    simp only [convEntity, Except.ok.injEq] at h
    subst h
    simp only [propGet, jsOr, rawTruthyId]
    cases hl : jsLookup "id" kvs with
    | none => rfl
    | some v =>
      by_cases ht : truthy v = true
      · simp [ht]
      · have hf : truthy v = false := by
          revert ht
          cases truthy v <;> simp
        simp [hf]
  | bool b =>
    simp only [convEntity, Except.ok.injEq] at h
    subst h
    rfl
  | num q =>
    simp only [convEntity, Except.ok.injEq] at h
    subst h
    rfl
  | str s =>
    simp only [convEntity, Except.ok.injEq] at h
    subst h
    rfl
  | arr xs =>
    simp only [convEntity, Except.ok.injEq] at h
    subst h
    rfl

/-- The converted entity list carries exactly the expected ids. -/
theorem convEntities_ids (freshE : ℕ → String) :
    ∀ (raws : List Json) (i : ℕ) (ents : List EntityJ),
      convEntities freshE i raws = .ok ents →
      ents.map (fun e => e.id) = idsFrom freshE i raws := by
  intro raws
  induction raws with
  | nil =>
    intro i ents h
    simp only [convEntities] at h
    cases h
    rfl
  | cons e es ih =>
    intro i ents h
    simp only [convEntities, Except.bind] at h
    cases hc : convEntity (freshE i) e with
    | error u => rw [hc] at h; cases h
    | ok a =>
      rw [hc] at h
      cases hr : convEntities freshE (i + 1) es with
      | error u => rw [hr] at h; cases h
      | ok rest =>
        rw [hr] at h
        cases h
        simp only [List.map_cons, idsFrom, expectedId]
        rw [convEntity_id (freshE i) e a hc, ih (i + 1) rest hr]

/-- C2, counterexample: a raw model output in which two entities carry the
same id `a` is accepted by `parseKGResponse`, and both parsed entities keep
the id `a`, so the parsed graph's entity ids are not pairwise distinct. -/
theorem c2_counterexample :
    ((parseKGResponse supplyX supplyX respDupIds).map
      (fun g => g.entities.map (fun e => e.id))) = some [Json.str "a", Json.str "a"] ∧
    ¬ List.Pairwise (fun a b : Json => a ≠ b) [Json.str "a", Json.str "a"] := by
  refine ⟨rfl, fun h => ?_⟩
  exact (List.pairwise_cons.mp h).1 (Json.str "a") (List.mem_singleton.mpr rfl) rfl

/-- C2 amended: the entity conversion of `parseKGResponse` assigns to each
raw entity its present truthy id verbatim and a synthesized
`entity_<token>` id only when the id is omitted or falsy — duplicates are
not deduplicated.  Consequently the parsed ids are pairwise distinct exactly
when the present ids together with the synthesized tokens are. -/
theorem c2_amended (freshE : ℕ → String) (raws : List Json) (ents : List EntityJ)
    (hconv : convEntities freshE 0 raws = .ok ents) :
    ents.map (fun e => e.id) = idsFrom freshE 0 raws ∧
    ((idsFrom freshE 0 raws).Pairwise (fun a b => a ≠ b) →
      (ents.map (fun e => e.id)).Pairwise (fun a b => a ≠ b)) := by
  have h := convEntities_ids freshE raws 0 ents hconv
  exact ⟨h, fun hd => h ▸ hd⟩

/-- Witness for C2 amended: one present id and one synthesized id, pairwise
distinct. -/
theorem c2_witness :
    convEntities supplyX 0 rawsW = .ok entsW ∧
    (entsW.map (fun e => e.id) = idsFrom supplyX 0 rawsW ∧
      ((idsFrom supplyX 0 rawsW).Pairwise (fun a b => a ≠ b) →
        (entsW.map (fun e => e.id)).Pairwise (fun a b => a ≠ b))) :=
  And.intro rfl (c2_amended supplyX rawsW entsW rfl)

/-- A case-insensitive occurrence in the tail is an occurrence. -/
theorem containsCaseless_cons (kw : List Char) (c : Char) (cs : List Char)
    (h : containsCaseless kw cs = true) : containsCaseless kw (c :: cs) = true := by
  simp [containsCaseless, h]

/-- The suffix chosen by `findKwSuffix` only contains occurrences the whole
text contains. -/
theorem findKwSuffix_contains (kws : List (List Char)) :
    ∀ (l s : List Char), findKwSuffix kws l = some s →
      ∀ kw, containsCaseless kw s = true → containsCaseless kw l = true := by
  intro l
  induction l with
  | nil =>
    intro s h
    simp [findKwSuffix] at h
  | cons c cs ih =>
    intro s h kw hkw
    simp only [findKwSuffix] at h
    split at h
    · cases h
      exact hkw
    · exact containsCaseless_cons kw c cs (ih s h kw hkw)

/-- A word-boundary match is in particular a case-insensitive occurrence of
one of the keywords. -/
theorem hasWordKwAux_contains (kws : List (List Char)) :
    ∀ (l : List Char) (prev : Option Char), hasWordKwAux kws prev l = true →
      ∃ kw ∈ kws, containsCaseless kw l = true := by
  intro l
  induction l with
  | nil =>
    intro prev h
    simp [hasWordKwAux] at h
  | cons c cs ih =>
    intro prev h
    simp only [hasWordKwAux, Bool.or_eq_true] at h
    rcases h with h | h
    · rw [List.any_eq_true] at h
      obtain ⟨kw, hm, hkw⟩ := h
      rw [Bool.and_eq_true, Bool.and_eq_true] at hkw
      exact ⟨kw, hm, by simp [containsCaseless, hkw.1.1]⟩
    · obtain ⟨kw, hm, hc⟩ := ih (some c) h
      exact ⟨kw, hm, containsCaseless_cons kw c cs hc⟩

/-- When the fence-stripped response contains no case-insensitive occurrence
of any recognized keyword, `extractCypherFromResponse` rejects it. -/
theorem extractCypher_none (resp : String)
    (h : cypherValidKws.all (fun k => !containsCaseless k (stripFences resp).data) = true) :
    extractCypherFromResponse resp = none := by
  have hno : ∀ kw ∈ cypherValidKws, containsCaseless kw (stripFences resp).data = false := by
    intro kw hm
    have := (List.all_eq_true.mp h) kw hm
    simpa using this
  unfold extractCypherFromResponse
  rcases hfk : findKwSuffix cypherSearchKws (stripFences resp).data with _ | suffix
  · simp only [hfk]
    rw [if_neg]
    intro habs
    obtain ⟨kw, hm, hc⟩ := hasWordKwAux_contains cypherValidKws _ none habs
    rw [hno kw hm] at hc
    cases hc
  · simp only [hfk]
    rw [if_neg]
    intro habs
    obtain ⟨kw, hm, hc⟩ := hasWordKwAux_contains cypherValidKws suffix none habs
    have hcl := findKwSuffix_contains cypherSearchKws _ suffix hfk kw hc
    rw [hno kw hm] at hcl
    cases hcl

/-- C9, counterexample: the response `CRE```ATE` contains none of the six
recognized keywords, yet `generateCypherCode` does not fall through to the
deterministic path: stripping the markdown fence splices the text into
`CREATE`, which passes the acceptance test and is returned as the model
result. -/
theorem c9_counterexample :
    cypherValidKws.all (fun k => !containsCaseless k "CRE```ATE".data) = true ∧
    generateCypherCode gSolo (.ok "CRE```ATE") = "CREATE" ∧
    generateCypherCode gSolo (.ok "CRE```ATE") ≠ generateFallbackCypher gSolo := by
  refine ⟨by decide, rfl, by decide⟩

/-- C9 amended: whenever the model response, after markdown-fence stripping,
contains none of the recognized keywords (case-insensitively, as
substrings), `generateCypherCode` falls through to the deterministic
fallback; and for a graph with one entity and no relationships the fallback
script contains a uniqueness-constraint statement, an idempotent `MERGE`
upsert keyed by the entity id, and an index-creation statement. -/
theorem c9_amended (g : KGRawData) (resp : String) (e : KGEntity)
    (h : cypherValidKws.all (fun k => !containsCaseless k (stripFences resp).data) = true) :
    generateCypherCode g (.ok resp) = generateFallbackCypher g ∧
    ("CREATE CONSTRAINT IF NOT EXISTS FOR (n:" ++ capitalizeFirst e.type ++
        ") REQUIRE n.id IS UNIQUE;") ∈
      generateFallbackCypherLines ⟨[e], [], none, none⟩ ∧
    ("MERGE (n:" ++ capitalizeFirst e.type ++ " \x7bid: \"" ++ sanitizeCypherString e.id ++
        "\"\x7d)") ∈
      generateFallbackCypherLines ⟨[e], [], none, none⟩ ∧
    ("CREATE INDEX IF NOT EXISTS FOR (n:" ++ capitalizeFirst e.type ++ ") ON (n.label);") ∈
      generateFallbackCypherLines ⟨[e], [], none, none⟩ := by
  refine ⟨?_, ?_, ?_, ?_⟩
  · show (match extractCypherFromResponse resp with
        | some code => code
        | none => generateFallbackCypher g) = generateFallbackCypher g
    rw [extractCypher_none resp h]
  · simp [generateFallbackCypherLines, dedupFirst, dedupFirstF, entityCypherLines]
  · simp [generateFallbackCypherLines, dedupFirst, dedupFirstF, entityCypherLines]
  · simp [generateFallbackCypherLines, dedupFirst, dedupFirstF, entityCypherLines]

/-- Witness for C9 amended at the one-entity graph and a keyword-free
response. -/
theorem c9_witness :
    generateCypherCode gSolo (.ok "the model refuses to answer") =
      generateFallbackCypher gSolo ∧
    ("CREATE CONSTRAINT IF NOT EXISTS FOR (n:" ++ capitalizeFirst eSolo.type ++
        ") REQUIRE n.id IS UNIQUE;") ∈
      generateFallbackCypherLines ⟨[eSolo], [], none, none⟩ ∧
    ("MERGE (n:" ++ capitalizeFirst eSolo.type ++ " \x7bid: \"" ++
        sanitizeCypherString eSolo.id ++ "\"\x7d)") ∈
      generateFallbackCypherLines ⟨[eSolo], [], none, none⟩ ∧
    ("CREATE INDEX IF NOT EXISTS FOR (n:" ++ capitalizeFirst eSolo.type ++
        ") ON (n.label);") ∈
      generateFallbackCypherLines ⟨[eSolo], [], none, none⟩ :=
  c9_amended gSolo "the model refuses to answer" eSolo (by decide)

/-- String append is associative (via the underlying character lists). -/
theorem strAppendAssoc (a b c : String) : a ++ b ++ c = a ++ (b ++ c) :=
  String.ext (by simp [String.data_append, List.append_assoc])

/-- The empty string is a right identity for append. -/
theorem strAppendEmpty (s : String) : s ++ "" = s := by
  apply String.ext
  rw [String.data_append]
  exact List.append_nil _

/-- The empty string is a left identity for append. -/
theorem strEmptyAppend (s : String) : "" ++ s = s := by
  apply String.ext
  rw [String.data_append]
  rfl

/-- The token estimate never shrinks when text is appended. -/
theorem estimateTokens_le_append (s t : String) :
    estimateTokens s ≤ estimateTokens (s ++ t) := by
  unfold estimateTokens
  rw [String.length_append]
  exact Nat.div_le_div_right (by omega)

/-- A string with nonempty character list is not the empty string. -/
theorem strNeEmpty_of_data (s : String) (h : s.data ≠ []) : s ≠ "" := by
  intro he
  rw [he] at h
  exact h rfl

/-- Appending a space yields a nonempty string. -/
theorem appendSpace_ne_empty (s : String) : s ++ " " ≠ "" := by
  apply strNeEmpty_of_data
  rw [String.data_append]
  simp

/-- The head surviving `dropWhile` fails the predicate. -/
theorem head_dropWhile_false (p : Char → Bool) (l : List Char) (c : Char) (cs : List Char)
    (h : l.dropWhile p = c :: cs) : p c = false := by
  induction l with
  | nil => simp at h
  | cons a t ih =>
    rw [List.dropWhile_cons] at h
    split at h
    · exact ih h
    · next hn =>
      cases h
      simpa using hn

/-- A nonempty trim result starts and ends with non-whitespace characters. -/
theorem trimFixed_jsTrim (u : String) (h : jsTrim u ≠ "") : trimFixed (jsTrim u) := by
  have hdata : (jsTrim u).data =
      ((u.data.dropWhile wsB).reverse.dropWhile wsB).reverse := rfl
  have hzne : (u.data.dropWhile wsB).reverse.dropWhile wsB ≠ [] := by
    intro hznil
    apply h
    apply String.ext
    rw [hdata, hznil]
    rfl
  obtain ⟨c, cs, hcz⟩ := List.exists_cons_of_ne_nil hzne
  have hzrne : ((u.data.dropWhile wsB).reverse.dropWhile wsB).reverse ≠ [] := by
    simpa using hzne
  obtain ⟨e, es, hzrev⟩ := List.exists_cons_of_ne_nil hzrne
  have hsplit : ((u.data.dropWhile wsB).reverse.takeWhile wsB) ++
      ((u.data.dropWhile wsB).reverse.dropWhile wsB) = (u.data.dropWhile wsB).reverse :=
    List.takeWhile_append_dropWhile wsB _
  have hA : u.data.dropWhile wsB =
      ((u.data.dropWhile wsB).reverse.dropWhile wsB).reverse ++
        ((u.data.dropWhile wsB).reverse.takeWhile wsB).reverse := by
    have hrev := congrArg List.reverse hsplit
    rw [List.reverse_append, List.reverse_reverse] at hrev
    exact hrev.symm
  constructor
  · refine ⟨e, ?_, ?_⟩
    · rw [hdata, hzrev]
      rfl
    · rw [hzrev] at hA
      rw [List.cons_append] at hA
      exact head_dropWhile_false wsB u.data e _ hA
  · refine ⟨c, ?_, ?_⟩
    · rw [hdata, List.reverse_reverse, hcz]
      rfl
    · exact head_dropWhile_false wsB (u.data.dropWhile wsB).reverse c cs hcz

/-- Every sentence produced by `splitIntoSentences` is nonempty and has
non-whitespace first and last characters. -/
theorem trimFixed_splitIntoSentences (content : String) :
    ∀ s ∈ splitIntoSentences content, trimFixed s := by
  intro s hs
  unfold splitIntoSentences at hs
  rw [List.mem_map] at hs
  obtain ⟨u, hu, hsu⟩ := hs
  have hune := List.of_mem_filter hu
  have : jsTrim u ≠ "" := by simpa using hune
  rw [← hsu]
  exact trimFixed_jsTrim u this

/-- A space-join of trim-fixed sentences is itself trim-fixed and
nonempty. -/
theorem trimFixed_joinSp :
    ∀ (sents : List String), sents ≠ [] → (∀ s ∈ sents, trimFixed s) →
      trimFixed (joinSp sents) ∧ joinSp sents ≠ "" := by
  intro sents
  induction sents with
  | nil => intro h; cases h rfl
  | cons s rest ih =>
    intro _ hall
    have hs := hall s (List.mem_cons_self s rest)
    obtain ⟨⟨c, hc, hcw⟩, ⟨c', hc', hcw'⟩⟩ := hs
    cases rest with
    | nil =>
      refine ⟨⟨⟨c, hc, hcw⟩, ⟨c', hc', hcw'⟩⟩, ?_⟩
      apply strNeEmpty_of_data
      intro hnil
      have hnil2 : s.data = [] := hnil
      rw [hnil2] at hc
      cases hc
    | cons r t =>
      obtain ⟨⟨⟨d, hd, hdw⟩, ⟨d', hd', hdw'⟩⟩, hne⟩ :=
        ih (List.cons_ne_nil r t) (fun x hx => hall x (List.mem_cons_of_mem s hx))
      have hjoin : joinSp (s :: r :: t) = s ++ " " ++ joinSp (r :: t) := rfl
      constructor
      · constructor
        · refine ⟨c, ?_, hcw⟩
          rw [hjoin, String.data_append, String.data_append, List.append_assoc,
            List.head?_append, hc]
          rfl
        · refine ⟨d', ?_, hdw'⟩
          rw [hjoin, String.data_append, List.reverse_append, List.head?_append, hd']
          rfl
      · apply strNeEmpty_of_data
        intro hnil
        rw [hjoin, String.data_append, String.data_append, List.append_assoc] at hnil
        rcases List.append_eq_nil.mp hnil with ⟨h1, _⟩
        rw [h1] at hc
        cases hc

/-- For a nonempty sentence list the packed text is the space-join followed
by one trailing space. -/
theorem trailJoin_eq (sents : List String) (h : sents ≠ []) :
    trailJoin sents = joinSp sents ++ " " := by
  induction sents with
  | nil => cases h rfl
  | cons s rest ih =>
    cases rest with
    | nil =>
      show s ++ " " ++ trailJoin [] = joinSp [s] ++ " "
      rw [show trailJoin [] = "" from rfl, strAppendEmpty]
      rfl
    | cons r t =>
      show s ++ " " ++ trailJoin (r :: t) = joinSp (s :: r :: t) ++ " "
      rw [ih (List.cons_ne_nil r t)]
      rw [show joinSp (s :: r :: t) = s ++ " " ++ joinSp (r :: t) from rfl]
      rw [strAppendAssoc (s ++ " ") (joinSp (r :: t)) " "]

/-- Trimming removes exactly the trailing space from a trim-fixed join. -/
theorem jsTrim_joinSp_space (j : String) (hg : trimFixed j) : jsTrim (j ++ " ") = j := by
  obtain ⟨⟨c, hc, hcw⟩, ⟨c', hc', hcw'⟩⟩ := hg
  apply String.ext
  show jsTrimList (j ++ " ").data = j.data
  rw [String.data_append]
  obtain ⟨jd0, jdt, hjd⟩ : ∃ a t, j.data = a :: t := by
    cases hjdata : j.data with
    | nil => rw [hjdata] at hc; cases hc
    | cons a t => exact ⟨a, t, rfl⟩
  have hcw0 : wsB jd0 = false := by
    rw [hjd] at hc
    cases hc
    exact hcw
  obtain ⟨jr0, jrt, hjr⟩ : ∃ a t, j.data.reverse = a :: t := by
    cases hjrev : j.data.reverse with
    | nil => rw [hjrev] at hc'; cases hc'
    | cons a t => exact ⟨a, t, rfl⟩
  have hcw1 : wsB jr0 = false := by
    rw [hjr] at hc'
    cases hc'
    exact hcw'
  unfold jsTrimList
  have step1 : (j.data ++ [' ']).dropWhile wsB = j.data ++ [' '] := by
    rw [hjd, List.cons_append, List.dropWhile_cons, if_neg (by simp [hcw0])]
  rw [step1]
  have step2 : (j.data ++ [' ']).reverse = ' ' :: j.data.reverse := by
    rw [List.reverse_append]
    rfl
  rw [step2, List.dropWhile_cons, if_pos (by decide)]
  rw [hjr, List.dropWhile_cons, if_neg (by simp [hcw1]), ← hjr, List.reverse_reverse]

/-- When the whole remaining text fits the budget, the packing loop emits a
single chunk holding everything accumulated. -/
theorem chunkLoop_single (cfg : ProcCfg) (typ : String) :
    ∀ (rest : List String) (current : String), current ≠ "" →
      estimateTokens (current ++ trailJoin rest) ≤ cfg.chunkSize →
      jsTrim (current ++ trailJoin rest) ≠ "" →
      chunkLoop cfg typ [] current rest =
        [⟨jsTrim (current ++ trailJoin rest), 0, estimateTokens (current ++ trailJoin rest),
          some (typ ++ "-chunk-" ++ toString 1), none, none⟩] := by
  intro rest
  induction rest with
  | nil =>
    intro current hne hbound htrim
    rw [show trailJoin [] = "" from rfl, strAppendEmpty] at htrim ⊢
    show (if jsTrim current != "" then _ else _) = _
    rw [if_pos (by simpa using htrim)]
    rfl
  | cons s rs ih =>
    intro current hne hbound htrim
    have hassoc : current ++ s ++ " " ++ trailJoin rs = current ++ trailJoin (s :: rs) := by
      rw [show trailJoin (s :: rs) = s ++ " " ++ trailJoin rs from rfl]
      rw [strAppendAssoc current s " ", ← strAppendAssoc current (s ++ " ") (trailJoin rs)]
    show (if cfg.chunkSize < estimateTokens (current ++ s ++ " ") ∧ current ≠ "" then _ else _) = _
    rw [if_neg]
    · have hres := ih (current ++ s ++ " ") (by
        apply strNeEmpty_of_data
        rw [String.data_append]
        simp)
        (by rw [hassoc]; exact hbound)
        (by rw [hassoc]; exact htrim)
      rw [hres, hassoc]
    · intro habs
      have hle : estimateTokens (current ++ s ++ " ") ≤ cfg.chunkSize := by
        calc estimateTokens (current ++ s ++ " ")
            ≤ estimateTokens (current ++ s ++ " " ++ trailJoin rs) :=
              estimateTokens_le_append _ _
          _ = estimateTokens (current ++ trailJoin (s :: rs)) := by rw [hassoc]
          _ ≤ cfg.chunkSize := hbound
      exact absurd habs.1 (by omega)

/-- Running the splitter over characters that are neither terminators nor
whitespace only accumulates them (reversed) onto the current piece. -/
theorem splitSentRegexF_plain :
    ∀ (l : List Char) (fuel : ℕ) (acc rest : List Char),
      (∀ c ∈ l, plainB c = true) → l.length ≤ fuel →
      splitSentRegexF fuel acc (l ++ rest) =
        splitSentRegexF (fuel - l.length) (l.reverse ++ acc) rest := by
  intro l
  induction l with
  | nil =>
    intro fuel acc rest _ _
    simp
  | cons c t ih =>
    intro fuel acc rest hall hlen
    have hc : plainB c = true := hall c (List.mem_cons_self c t)
    have hsc : sentB c = false := by
      cases hsb : sentB c with
      | false => rfl
      | true =>
        exfalso
        unfold plainB at hc
        rw [hsb] at hc
        simp at hc
    cases fuel with
    | zero => simp at hlen
    | succ f =>
      have hlen' : t.length ≤ f := by simpa using hlen
      show splitSentRegexF (f + 1) acc (c :: (t ++ rest)) = _
      simp only [splitSentRegexF]
      rw [if_neg (by simp [hsc])]
      rw [ih f (c :: acc) rest (fun x hx => hall x (List.mem_cons_of_mem c hx)) hlen']
      simp only [List.length_cons, List.reverse_cons, List.append_assoc,
        List.singleton_append]
      rw [Nat.succ_sub_succ]

/-- `dropWhile` stops immediately at a head failing the predicate. -/
theorem dropWhile_head_false (p : Char → Bool) (x : Char) (l : List Char)
    (h : p x = false) : (x :: l).dropWhile p = x :: l := by
  rw [List.dropWhile_cons, if_neg (by simp [h])]

/-- Unfolding equation of the token estimate, for rewriting without a
definitional-unfolding step. -/
theorem estimateTokens_eq (s : String) : estimateTokens s = (s.length + 3) / 4 :=
  rfl

/-- Unfolding equation of `processText` down to the packing loop. -/
theorem processText_eq (cfg : ProcCfg) (content : String) :
    processText cfg content = chunkLoop cfg "text" [] "" (splitIntoSentences content) :=
  rfl

/-- Trimming fixes any string whose first and last characters are
non-whitespace. -/
theorem jsTrim_of_trimFixed (u : String) (h : trimFixed u) : jsTrim u = u := by
  obtain ⟨⟨c, hc, hcw⟩, ⟨c', hc', hcw'⟩⟩ := h
  apply String.ext
  show jsTrimList u.data = u.data
  unfold jsTrimList
  obtain ⟨t, ht⟩ : ∃ t, u.data = c :: t := by
    cases hd : u.data with
    | nil => rw [hd] at hc; cases hc
    | cons a t => rw [hd] at hc; cases hc; exact ⟨t, rfl⟩
  obtain ⟨t', ht'⟩ : ∃ t', u.data.reverse = c' :: t' := by
    cases hd : u.data.reverse with
    | nil => rw [hd] at hc'; cases hc'
    | cons a t => rw [hd] at hc'; cases hc'; exact ⟨t, rfl⟩
  have h1 : u.data.dropWhile wsB = u.data := by
    rw [ht]; exact dropWhile_head_false wsB c t hcw
  have h2 : u.data.reverse.dropWhile wsB = u.data.reverse := by
    rw [ht']; exact dropWhile_head_false wsB c' t' hcw'
  rw [h1, h2, List.reverse_reverse]

/-- A string all of whose characters are non-whitespace and nonempty is
trim-fixed. -/
theorem trimFixed_of_plain (s : String) (hne : s.data ≠ [])
    (h : ∀ c ∈ s.data, wsB c = false) : trimFixed s := by
  obtain ⟨a, t, hd⟩ := List.exists_cons_of_ne_nil hne
  constructor
  · exact ⟨a, by rw [hd]; rfl, h a (by rw [hd]; exact List.mem_cons_self a t)⟩
  · have hrne : s.data.reverse ≠ [] := by simpa using hne
    obtain ⟨b, t', hb⟩ := List.exists_cons_of_ne_nil hrne
    exact ⟨b, by rw [hb]; rfl,
      h b (List.mem_reverse.mp (by rw [hb]; exact List.mem_cons_self b t'))⟩

/-- Characters passed over by the splitter are in particular
non-whitespace. -/
theorem plain_to_ws (s : String) (hs : ∀ c ∈ s.data, plainB c = true) :
    ∀ c ∈ s.data, wsB c = false := by
  intro c hc
  have h := hs c hc
  cases hw : wsB c with
  | false => rfl
  | true =>
    exfalso
    unfold plainB at h
    rw [hw] at h
    simp at h

/-- Trimming fixes a string of splitter-plain characters. -/
theorem jsTrim_plain (s : String) (hs : ∀ c ∈ s.data, plainB c = true)
    (hne : s.data ≠ []) : jsTrim s = s :=
  jsTrim_of_trimFixed s (trimFixed_of_plain s hne (plain_to_ws s hs))

/-- Splitting `A . ␣ B` for plain `A` and `B` yields exactly the two
pieces. -/
theorem splitSentRegex_pair (A B : List Char)
    (hA : ∀ c ∈ A, plainB c = true) (hB : ∀ c ∈ B, plainB c = true)
    (hBne : B ≠ []) :
    splitSentRegex (A ++ '.' :: ' ' :: B) = [A, B] := by
  obtain ⟨b, bs, hBd⟩ := List.exists_cons_of_ne_nil hBne
  have hwb : wsB b = false := by
    have h := hB b (by rw [hBd]; exact List.mem_cons_self b bs)
    cases hw : wsB b with
    | false => rfl
    | true =>
      exfalso
      unfold plainB at h
      rw [hw] at h
      simp at h
  unfold splitSentRegex
  have hlen : (A ++ '.' :: ' ' :: B).length = A.length + (B.length + 2) := by
    simp only [List.length_append, List.length_cons]
  rw [hlen, splitSentRegexF_plain A _ [] ('.' :: ' ' :: B) hA (by omega)]
  have hf : A.length + (B.length + 2) - A.length = B.length + 2 := by omega
  rw [hf]
  show splitSentRegexF (B.length + 1 + 1) (A.reverse ++ []) ('.' :: ' ' :: B) = [A, B]
  have hdrop1 : ('.' :: ' ' :: B).dropWhile sentB = ' ' :: B := by
    rw [List.dropWhile_cons, if_pos (by decide), List.dropWhile_cons,
      if_neg (by decide)]
  simp only [splitSentRegexF]
  rw [if_pos (show sentB '.' = true from rfl), hdrop1]
  rw [if_pos (show ((' ' :: B).head?.any wsB) = true from rfl)]
  have hdrop2 : (' ' :: B).dropWhile wsB = B := by
    rw [List.dropWhile_cons, if_pos (by decide), hBd,
      dropWhile_head_false wsB b bs hwb, ← hBd]
  rw [hdrop2]
  rw [show splitSentRegexF (B.length + 1) [] B =
      splitSentRegexF (B.length + 1) [] (B ++ []) from by rw [List.append_nil]]
  rw [splitSentRegexF_plain B _ [] [] hB (by omega)]
  simp only [splitSentRegexF]
  simp [List.append_nil, List.reverse_reverse]

/-- `splitIntoSentences` on two plain sentences joined by `. ` recovers
exactly those sentences. -/
theorem splitIntoSentences_pair (A B : String)
    (hA : ∀ c ∈ A.data, plainB c = true) (hAne : A.data ≠ [])
    (hB : ∀ c ∈ B.data, plainB c = true) (hBne : B.data ≠ []) :
    splitIntoSentences (A ++ ". " ++ B) = [A, B] := by
  have hdata : (A ++ ". " ++ B).data = A.data ++ '.' :: ' ' :: B.data := by
    rw [String.data_append, String.data_append, List.append_assoc]
    rfl
  have hjA : jsTrim A = A := jsTrim_plain A hA hAne
  have hjB : jsTrim B = B := jsTrim_plain B hB hBne
  have hAe : A ≠ "" := strNeEmpty_of_data A hAne
  have hBe : B ≠ "" := strNeEmpty_of_data B hBne
  unfold splitIntoSentences
  rw [hdata, splitSentRegex_pair A.data B.data hA hB hBne]
  simp only [List.map_cons, List.map_nil]
  have hmkA : (⟨A.data⟩ : String) = A := rfl
  have hmkB : (⟨B.data⟩ : String) = B := rfl
  rw [hmkA, hmkB]
  rw [List.filter_cons, if_pos (show (jsTrim A != "") = true from by
    rw [hjA]; exact bne_iff_ne.mpr hAe)]
  rw [List.filter_cons, if_pos (show (jsTrim B != "") = true from by
    rw [hjB]; exact bne_iff_ne.mpr hBe)]
  rw [List.filter_nil]
  simp only [List.map_cons, List.map_nil]
  rw [hjA, hjB]

/-- `splitIntoSentences` of a plain sentence with one trailing space is that
sentence alone. -/
theorem splitIntoSentences_trail (A : String)
    (hA : ∀ c ∈ A.data, plainB c = true) (hAne : A.data ≠ []) :
    splitIntoSentences (A ++ " ") = [A] := by
  have hdata : (A ++ " ").data = A.data ++ [' '] := by
    rw [String.data_append]
  have htrim : jsTrim (A ++ " ") = A :=
    jsTrim_joinSp_space A (trimFixed_of_plain A hAne (plain_to_ws A hA))
  have hAe : A ≠ "" := strNeEmpty_of_data A hAne
  unfold splitIntoSentences
  rw [hdata]
  unfold splitSentRegex
  have hlen : (A.data ++ [' ']).length = A.data.length + 1 := by simp
  rw [hlen, splitSentRegexF_plain A.data _ [] [' '] hA (by omega)]
  have hf : A.data.length + 1 - A.data.length = 1 := by omega
  rw [hf]
  have hsplit : splitSentRegexF 1 (A.data.reverse ++ []) [' '] = [(A ++ " ").data] := by
    show splitSentRegexF (0 + 1) (A.data.reverse ++ []) [' '] = [(A ++ " ").data]
    simp only [splitSentRegexF]
    rw [if_neg (by decide)]
    rw [List.reverse_cons, List.append_nil, List.reverse_reverse, ← hdata]
  rw [hsplit]
  simp only [List.map_cons, List.map_nil]
  have hmk : (⟨(A ++ " ").data⟩ : String) = A ++ " " := rfl
  rw [hmk]
  rw [List.filter_cons, if_pos (show (jsTrim (A ++ " ") != "") = true from by
    rw [htrim]; exact bne_iff_ne.mpr hAe)]
  rw [List.filter_nil]
  simp only [List.map_cons, List.map_nil]
  rw [htrim]

/-- The overlap construction applied to a single plain sentence keeps it
whole: the carried chunk is the previous sentence followed by the new one. -/
theorem createOverlap_carry (A B : String)
    (hA : ∀ c ∈ A.data, plainB c = true) (hAne : A.data ≠ []) :
    createOverlap defaultProcCfg (A ++ " ") B = A ++ " " ++ B := by
  simp only [createOverlap]
  rw [splitIntoSentences_trail A hA hAne]
  rw [if_neg (by decide)]
  rfl

/-- Every character of the first counterexample sentence is plain. -/
theorem c5sentA_plain : ∀ c ∈ c5sentA.data, plainB c = true := by
  intro c hc
  rw [List.eq_of_mem_replicate (show c ∈ List.replicate 12004 'a' from hc)]
  decide

/-- Every character of the second counterexample sentence is plain. -/
theorem c5sentB_plain : ∀ c ∈ c5sentB.data, plainB c = true := by
  intro c hc
  rw [List.eq_of_mem_replicate (show c ∈ List.replicate 12004 'b' from hc)]
  decide

/-- The first counterexample sentence is nonempty. -/
theorem c5sentA_ne : c5sentA.data ≠ [] := by
  apply List.ne_nil_of_length_pos
  show 0 < (List.replicate 12004 'a').length
  rw [List.length_replicate]
  decide

/-- The second counterexample sentence is nonempty. -/
theorem c5sentB_ne : c5sentB.data ≠ [] := by
  apply List.ne_nil_of_length_pos
  show 0 < (List.replicate 12004 'b').length
  rw [List.length_replicate]
  decide

/-- Length of the first counterexample sentence. -/
theorem c5sentA_len : c5sentA.length = 12004 := by
  show (List.replicate 12004 'a').length = 12004
  rw [List.length_replicate]

/-- Length of the second counterexample sentence. -/
theorem c5sentB_len : c5sentB.length = 12004 := by
  show (List.replicate 12004 'b').length = 12004
  rw [List.length_replicate]

/-- Head normal form of the first counterexample sentence. -/
theorem c5sentA_cons : c5sentA.data = 'a' :: List.replicate 12003 'a' := by
  show List.replicate 12004 'a' = 'a' :: List.replicate 12003 'a'
  rw [show (12004 : ℕ) = 12003 + 1 from rfl, List.replicate_succ]

/-- Head normal form of the reversed second counterexample sentence. -/
theorem c5sentB_rev : c5sentB.data.reverse = 'b' :: List.replicate 12003 'b' := by
  show (List.replicate 12004 'b').reverse = 'b' :: List.replicate 12003 'b'
  rw [List.reverse_replicate, show (12004 : ℕ) = 12003 + 1 from rfl,
    List.replicate_succ]

/-- Evaluation of the chunker on the oversized two-sentence input: the first
chunk is the first sentence (3002 tokens including its trailing space) and
the second, overlap-seeded chunk carries both sentences (6003 tokens),
exceeding the 3000-token budget by more than one sentence. -/
theorem processText_oversized :
    processText defaultProcCfg c5oversized =
      [⟨c5sentA, 0, 3002, some ("text" ++ "-chunk-" ++ toString 1), none, none⟩,
        ⟨c5sentA ++ " " ++ c5sentB, 1, 6003,
          some ("text" ++ "-chunk-" ++ toString 2), none, none⟩] := by
  have htfA : trimFixed c5sentA :=
    trimFixed_of_plain c5sentA c5sentA_ne (plain_to_ws c5sentA c5sentA_plain)
  have hc1content : jsTrim (c5sentA ++ " ") = c5sentA :=
    jsTrim_joinSp_space c5sentA htfA
  have hc1tok : estimateTokens (c5sentA ++ " ") = 3002 := by
    rw [estimateTokens_eq, String.length_append, c5sentA_len]
    decide
  have htfAB : trimFixed (c5sentA ++ " " ++ c5sentB) := by
    constructor
    · refine ⟨'a', ?_, by decide⟩
      rw [String.data_append, String.data_append, c5sentA_cons]
      rfl
    · refine ⟨'b', ?_, by decide⟩
      rw [String.data_append, String.data_append, List.reverse_append, c5sentB_rev]
      rfl
  have hc2content : jsTrim (c5sentA ++ " " ++ c5sentB) = c5sentA ++ " " ++ c5sentB :=
    jsTrim_of_trimFixed _ htfAB
  have hc2tok : estimateTokens (c5sentA ++ " " ++ c5sentB) = 6003 := by
    rw [estimateTokens_eq, String.length_append, String.length_append,
      c5sentA_len, c5sentB_len]
    decide
  have hABne : c5sentA ++ " " ++ c5sentB ≠ "" := by
    apply strNeEmpty_of_data
    rw [String.data_append]
    simp [c5sentB_ne]
  rw [processText_eq]
  rw [show c5oversized = c5sentA ++ ". " ++ c5sentB from rfl,
    splitIntoSentences_pair c5sentA c5sentB c5sentA_plain c5sentA_ne
      c5sentB_plain c5sentB_ne]
  simp only [chunkLoop]
  rw [strEmptyAppend c5sentA]
  rw [if_neg (fun habs => habs.2 rfl)]
  rw [if_pos (show defaultProcCfg.chunkSize <
        estimateTokens (c5sentA ++ " " ++ c5sentB ++ " ") ∧ c5sentA ++ " " ≠ "" from by
      constructor
      · have h6 : estimateTokens (c5sentA ++ " " ++ c5sentB ++ " ") = 6003 := by
          rw [estimateTokens_eq, String.length_append, String.length_append,
            String.length_append, c5sentA_len, c5sentB_len]
          decide
        rw [h6]
        decide
      · exact appendSpace_ne_empty c5sentA)]
  rw [createOverlap_carry c5sentA c5sentB c5sentA_plain c5sentA_ne]
  rw [if_pos (show (jsTrim (c5sentA ++ " " ++ c5sentB) != "") = true from by
    rw [hc2content]
    exact bne_iff_ne.mpr hABne)]
  rw [hc1content, hc1tok, hc2content, hc2tok]
  rfl

/-- Every chunk emitted by the packing loop is within the size budget unless
its accumulator was seeded without a size check (a first sentence, or an
overlap carry-over plus one sentence); the invariant follows the loop. -/
theorem chunkLoop_shape (cfg : ProcCfg) (typ : String) (sents0 : List String) :
    ∀ (sents : List String) (chunks : List DocumentChunk) (current : String),
      (∀ s ∈ sents, s ∈ sents0) →
      (current = "" ∨ estimateTokens current ≤ cfg.chunkSize ∨
        seedChunk cfg sents0 current) →
      (∀ c ∈ chunks, c.tokens ≤ cfg.chunkSize ∨
        ∃ cur, seedChunk cfg sents0 cur ∧ c.content = jsTrim cur ∧
          c.tokens = estimateTokens cur) →
      ∀ c ∈ chunkLoop cfg typ chunks current sents,
        c.tokens ≤ cfg.chunkSize ∨
        ∃ cur, seedChunk cfg sents0 cur ∧ c.content = jsTrim cur ∧
          c.tokens = estimateTokens cur := by
  intro sents
  induction sents with
  | nil =>
    intro chunks current hsub hcur hchunks c hc
    simp only [chunkLoop] at hc
    by_cases hp : (jsTrim current != "") = true
    · rw [if_pos hp] at hc
      rcases List.mem_append.mp hc with hc | hc
      · exact hchunks c hc
      · rcases List.mem_singleton.mp hc with rfl
        rcases hcur with hemp | hle | hseed
        · rw [hemp] at hp
          exact absurd hp (by decide)
        · left
          exact hle
        · right
          exact ⟨current, hseed, rfl, rfl⟩
    · rw [if_neg hp] at hc
      exact hchunks c hc
  | cons s rest ih =>
    intro chunks current hsub hcur hchunks c hc
    simp only [chunkLoop] at hc
    by_cases hp : cfg.chunkSize < estimateTokens (current ++ s ++ " ") ∧ current ≠ ""
    · rw [if_pos hp] at hc
      refine ih _ (createOverlap cfg current s)
        (fun x hx => hsub x (List.mem_cons_of_mem s hx))
        (Or.inr (Or.inr (Or.inr ⟨current, s, hsub s (List.mem_cons_self s rest), rfl⟩)))
        ?_ c hc
      intro c' hc'
      rcases List.mem_append.mp hc' with h | h
      · exact hchunks c' h
      · rcases List.mem_singleton.mp h with rfl
        rcases hcur with hemp | hle | hseed
        · exact absurd hemp hp.2
        · left
          exact hle
        · right
          exact ⟨current, hseed, rfl, rfl⟩
    · rw [if_neg hp] at hc
      refine ih _ (current ++ s ++ " ")
        (fun x hx => hsub x (List.mem_cons_of_mem s hx)) ?_ hchunks c hc
      by_cases hemp : current = ""
      · right
        right
        left
        exact ⟨s, hsub s (List.mem_cons_self s rest), by rw [hemp, strEmptyAppend]⟩
      · right
        left
        have hnl : ¬ cfg.chunkSize < estimateTokens (current ++ s ++ " ") :=
          fun hlt => hp ⟨hlt, hemp⟩
        exact Nat.le_of_not_lt hnl

/-- C5, counterexample refuting both conjuncts of the claim.  First,
reassembly: the sentence splitter discards the `[.!?]+\s+` separators, so
even without overlap the input `A. B.` yields the single chunk `A B.`,
whose concatenation differs from the input.  Second, the size budget: on two
12004-character sentences (3001 estimated tokens each), the overlap-seeded
second chunk carries both sentences and reaches 6003 tokens, exceeding the
3000-token budget by 3003 tokens — more than any single sentence of the
input (each at most 3001 tokens, itself already above the budget), so the
chunk exceeds the budget by more than one sentence. -/
theorem c5_counterexample :
    ((processText defaultProcCfg "A. B.").map (fun c => c.content) = ["A B."] ∧
      "A B." ≠ "A. B.") ∧
    ((splitIntoSentences c5oversized).map estimateTokens = [3001, 3001] ∧
      (processText defaultProcCfg c5oversized).map (fun c => c.tokens) = [3002, 6003] ∧
      defaultProcCfg.chunkSize < 3001 ∧
      defaultProcCfg.chunkSize + 3001 < 6003) := by
  have hestA : estimateTokens c5sentA = 3001 := by
    rw [estimateTokens_eq, c5sentA_len]
  have hestB : estimateTokens c5sentB = 3001 := by
    rw [estimateTokens_eq, c5sentB_len]
  refine ⟨⟨by decide, by decide⟩, ?_, ?_, by decide, by decide⟩
  · rw [show c5oversized = c5sentA ++ ". " ++ c5sentB from rfl,
      splitIntoSentences_pair c5sentA c5sentB c5sentA_plain c5sentA_ne
        c5sentB_plain c5sentB_ne]
    rw [List.map_cons, List.map_cons, List.map_nil, hestA, hestB]
  · rw [processText_oversized]
    rfl

/-- C5 amended, two parts.  Reassembly: whenever the extracted sentence list
fits the token budget in one chunk, `processText` returns exactly one chunk
whose content is the space-join of the sentences (the input with `[.!?]+\s+`
separator runs collapsed to single spaces and outer whitespace trimmed) —
the sentence-normalized input, not the raw input.  Size: every chunk any
`chunkText` call emits is within the configured budget unless its
accumulator was seeded without a size check, in which case its content is
the trim of a single sentence (with trailing space) or of an overlap
carry-over followed by one sentence, with the matching token estimate — so
overflow beyond one sentence is confined to overlap-seeded chunks. -/
theorem c5_amended (cfg cfg2 : ProcCfg) (content content2 typ2 : String)
    (c : DocumentChunk)
    (hne : splitIntoSentences content ≠ [])
    (hbound : estimateTokens (trailJoin (splitIntoSentences content)) ≤ cfg.chunkSize)
    (hc : c ∈ chunkText cfg2 content2 typ2) :
    processText cfg content =
      [⟨joinSp (splitIntoSentences content), 0,
        estimateTokens (trailJoin (splitIntoSentences content)),
        some ("text" ++ "-chunk-" ++ toString 1), none, none⟩] ∧
    (c.tokens ≤ cfg2.chunkSize ∨
      ∃ cur, seedChunk cfg2 (splitIntoSentences content2) cur ∧
        c.content = jsTrim cur ∧ c.tokens = estimateTokens cur) := by
  constructor
  · have hgood := trimFixed_splitIntoSentences content
    obtain ⟨hJfix, hJne⟩ := trimFixed_joinSp (splitIntoSentences content) hne hgood
    have htrimkey : jsTrim (trailJoin (splitIntoSentences content)) =
        joinSp (splitIntoSentences content) := by
      rw [trailJoin_eq _ hne]
      exact jsTrim_joinSp_space _ hJfix
    obtain ⟨s, rest, hsents⟩ := List.exists_cons_of_ne_nil hne
    unfold processText chunkText
    rw [hsents]
    show (if cfg.chunkSize < estimateTokens ("" ++ s ++ " ") ∧ ("" : String) ≠ ""
      then _ else _) = _
    rw [if_neg (fun habs => habs.2 rfl)]
    have hcur : ("" : String) ++ s ++ " " = s ++ " " := by rw [strEmptyAppend]
    rw [hcur]
    have hkey : (s ++ " ") ++ trailJoin rest = trailJoin (s :: rest) := by
      rw [show trailJoin (s :: rest) = s ++ " " ++ trailJoin rest from rfl]
    rw [chunkLoop_single cfg "text" rest (s ++ " ") (appendSpace_ne_empty s)
      (by rw [hkey, ← hsents]; exact hbound)
      (by rw [hkey, ← hsents, htrimkey]; exact hJne)]
    rw [hkey, ← hsents, htrimkey]
  · exact chunkLoop_shape cfg2 typ2 (splitIntoSentences content2)
      (splitIntoSentences content2) [] "" (fun x hx => hx) (Or.inl rfl)
      (fun c' hc' => absurd hc' (List.not_mem_nil c')) c hc

/-- Witness for C5 amended at a two-sentence input that fits one chunk; the
size part is instantiated at the single chunk that input emits. -/
theorem c5_witness :
    processText defaultProcCfg "Hi there. Bye." = [c5chunk] ∧
    (c5chunk.tokens ≤ defaultProcCfg.chunkSize ∨
      ∃ cur, seedChunk defaultProcCfg (splitIntoSentences "Hi there. Bye.") cur ∧
        c5chunk.content = jsTrim cur ∧ c5chunk.tokens = estimateTokens cur) :=
  c5_amended defaultProcCfg defaultProcCfg "Hi there. Bye." "Hi there. Bye." "text"
    c5chunk (by decide) (by decide) (by decide)

end Scrapient
